import Mathlib

/-!
# Duckhook, Windows page allocator (`src/duckhook_windows.c`)

A shallow embedding of the page allocator of `duckhook_windows.c` and the properties
proved about it.

Modelling conventions.

* Addresses and `size_t` values are natural numbers below `2 ^ bits`; every `size_t`
  operation of the source is reduced modulo `2 ^ bits` (`bits` is 64 when `CPU_X86_64`
  is defined and 32 otherwise).
* The circular doubly linked list hanging off the sentinel `page_list` is the list of its
  control structures in `next` order, starting at `page_list.next`; the sentinel itself is
  the end of the list (`none` as a cursor).
* A control structure (`page_list_t`) lives at the base address of its reservation, so a
  pointer `pl` is the field `base` of a block.
* The Windows calls are outcomes supplied by the environment (`OS`), one record per call of
  a public function. `reserved` records the reservations made with
  `VirtualAlloc(MEM_RESERVE)` that have not been given back with `VirtualFree(MEM_RELEASE)`.
* Memory committed with `VirtualAlloc(MEM_COMMIT)` is zero filled, so a new control
  structure starts with `num_used = 0` and `used[i] = 0`.
* `VirtualProtect` acts on a map from page numbers to protection flags; whether a call
  with valid arguments succeeds is again supplied by the environment.
* The address space seen by `VirtualQuery` is a function from addresses to query results;
  `region_query` builds it from a list of regions.
* Logging and error-message formatting have no effect on the allocator state and are left
  out.
-/

namespace Duckhook

/-! ## Data model -/

/-- Control structure `page_list_t` of one reservation: `base` is its own address,
`used` holds the `max_num_pages` occupancy bytes. -/
structure page_info where
  base : Nat
  num_used : Int
  used : List Nat
  deriving DecidableEq, Repr

/-- The three file-level geometry variables together with the build configuration
(`CPU_X86_64` defined or not). -/
structure Geometry where
  allocation_unit : Nat
  page_size : Nat
  max_num_pages : Nat
  cpu_x86_64 : Bool
  deriving DecidableEq, Repr

/-- Width of `size_t` and of pointers. -/
def Geometry.bits (g : Geometry) : Nat := if g.cpu_x86_64 then 64 else 32

/-- Number of `size_t` values, `2 ^ bits`. -/
def Geometry.W (g : Geometry) : Nat := 2 ^ g.bits

/-- The part of `SYSTEM_INFO` read by `duckhook_page_size` (both are `DWORD`s). -/
structure SYSTEM_INFO where
  dwPageSize : Nat
  dwAllocationGranularity : Nat
  deriving DecidableEq, Repr

/-- The part of `MEMORY_BASIC_INFORMATION` read by `alloc_page_info`;
`free` is `State == MEM_FREE`. -/
structure MEMORY_BASIC_INFORMATION where
  BaseAddress : Nat
  RegionSize : Nat
  free : Bool
  deriving DecidableEq, Repr

/-- Outcomes of the Windows calls made during one call of a public function.
`VirtualQuery a = none` is a return value of 0, `reserve hint = none` is a `NULL` result of
`VirtualAlloc(hint, allocation_unit, MEM_RESERVE, _)`; `commit a`, `decommit a` and
`release a` tell whether `VirtualAlloc(a, page_size, MEM_COMMIT, _)`,
`VirtualFree(a, page_size, MEM_DECOMMIT)` and `VirtualFree(a, 0, MEM_RELEASE)` succeed. -/
structure OS where
  VirtualQuery : Nat → Option MEMORY_BASIC_INFORMATION
  reserve : Nat → Option Nat
  commit : Nat → Bool
  decommit : Nat → Bool
  release : Nat → Bool

/-- Allocator state: the registry in `next` order from `page_list.next`, and the bases of
the reservations currently held. -/
structure State where
  page_list : List page_info
  reserved : List Nat
  deriving DecidableEq, Repr

/-- The error codes returned by `alloc_page_info` and `duckhook_page_alloc`. Their numeric
values are declared in a header that is not part of the sources at hand; the code only
relies on them being different from 0. -/
inductive Err where
  | DUCKHOOK_ERROR_INTERNAL_ERROR
  | DUCKHOOK_ERROR_MEMORY_ALLOCATION
  deriving DecidableEq, Repr

deriving instance DecidableEq for Except

/-- The empty registry: the sentinel points to itself and nothing is reserved. -/
def State.empty : State := ⟨[], []⟩

/-! ## Machine arithmetic -/

/-- Subtraction of `size_t` values. -/
def sub_w (W a b : Nat) : Nat := (a % W + W - b % W) % W

/-- Bitwise complement `~a` of a `size_t` value. -/
def not_w (W a : Nat) : Nat := W - 1 - a % W

/-- Conversion of a `size_t` value to `int` (32 bits, two's complement). -/
def to_int (a : Nat) : Int :=
  if a % 2 ^ 32 < 2 ^ 31 then ((a % 2 ^ 32 : Nat) : Int) else ((a % 2 ^ 32 : Nat) : Int) - 2 ^ 32

/-- Conversion of an `int` to `size_t`. -/
def of_int (W : Nat) (d : Int) : Nat := (d % (W : Int)).toNat

/-- Modelled from the spec: the macro `ROUND_DOWN` of `duckhook_internal.h`, which is not
part of the sources at hand; it rounds `num` down to a multiple of `unit`. -/
def ROUND_DOWN (num unit : Nat) : Nat := num - num % unit

/-- Modelled from the spec: the macro `ROUND_UP` of `duckhook_internal.h`, which is not
part of the sources at hand; it rounds `num` up to a multiple of `unit`. -/
def ROUND_UP (num unit : Nat) : Nat := ROUND_DOWN (num + unit - 1) unit

/-! ## `duckhook_page_size` -/

/-- `duckhook_page_size`: stores the geometry reported by `GetSystemInfo` and returns the
page size. The build configuration is kept. A reported page size of 0 would make the
source divide by zero; here the quotient is then 0. -/
def duckhook_page_size (g : Geometry) (si : SYSTEM_INFO) : Nat × Geometry :=
  let page_size := si.dwPageSize % g.W
  let allocation_unit := si.dwAllocationGranularity % g.W
  let max_num_pages := sub_w g.W (allocation_unit / page_size) 1
  (page_size, { g with allocation_unit := allocation_unit, page_size := page_size,
                       max_num_pages := max_num_pages })

/-! ## `alloc_page_info` -/

/-- The `while (1)` loop of `alloc_page_info` under `CPU_X86_64`. `fuel` bounds the number
of iterations; `none` means the bound was reached. The result is the error of a failed
`VirtualQuery` or the value of `hint` at the `break`. -/
def hint_loop (g : Geometry) (os : OS) : Nat → Nat → Option (Except Err Nat)
  | 0, _ => none
  | fuel + 1, hint =>
    match os.VirtualQuery hint with
    | none => some (.error .DUCKHOOK_ERROR_INTERNAL_ERROR)
    | some mbi =>
      let next := (mbi.BaseAddress + mbi.RegionSize) % g.W
      if mbi.free then
        let addr := ROUND_UP mbi.BaseAddress g.allocation_unit % g.W
        let diff := to_int (sub_w g.W addr mbi.BaseAddress)
        if 0 ≤ diff then
          if g.allocation_unit ≤ sub_w g.W mbi.RegionSize (of_int g.W diff) then
            some (.ok addr)
          else hint_loop g os fuel next
        else hint_loop g os fuel next
      else hint_loop g os fuel next

/-- The hint handed to the reservation: the result of the scan under `CPU_X86_64`,
`NULL` otherwise. -/
def choose_hint (g : Geometry) (os : OS) (fuel : Nat) (hint : Nat) : Option (Except Err Nat) :=
  if g.cpu_x86_64 then hint_loop g os fuel hint else some (.ok 0)

/-- A control structure in freshly committed, zero-filled memory. -/
def page_info.fresh (g : Geometry) (pl : Nat) : page_info :=
  ⟨pl, 0, List.replicate g.max_num_pages 0⟩

/-- `alloc_page_info`: reserve one allocation unit, commit its first page as control page
and link it right behind the sentinel. Returns `*pl_out` or the error code. -/
def alloc_page_info (g : Geometry) (os : OS) (fuel : Nat) (st : State) (hint : Nat) :
    Option (Except Err Nat × State) :=
  match choose_hint g os fuel hint with
  | none => none
  | some (.error e) => some (.error e, st)
  | some (.ok hint) =>
    match os.reserve hint with
    | none => some (.error .DUCKHOOK_ERROR_MEMORY_ALLOCATION, st)
    | some pl =>
      let st1 : State := { st with reserved := pl :: st.reserved }
      if os.commit pl then
        some (.ok pl, { st1 with page_list := page_info.fresh g pl :: st1.page_list })
      else
        -- VirtualFree(pl, 0, MEM_RELEASE), its result is not looked at
        let st2 : State :=
          if os.release pl then { st1 with reserved := st1.reserved.erase pl } else st1
        some (.error .DUCKHOOK_ERROR_INTERNAL_ERROR, st2)

/-! ## `duckhook_page_alloc` -/

/-- The local variables `i` and `page` of `duckhook_page_alloc`. -/
structure Locals where
  i : Nat
  page : Nat
  deriving DecidableEq, Repr

/-- The inner loop `for (i = 0; i < max_num_pages; i++)` on block `pl`, started with `n`
iterations to go: a free slot whose page passes `duckhook_page_avail` ends the loop by
`break`. Returns the locals when the loop is left. -/
def slot_loop (g : Geometry) (avail : Nat → Nat → Bool) (func : Nat) (pl : page_info) :
    Nat → Locals → Locals
  | 0, c => c
  | n + 1, c =>
    if pl.used.getD c.i 0 = 0 then
      let page := (pl.base + (c.i + 1) * g.page_size) % g.W
      if avail page func then { c with page := page }
      else slot_loop g avail func pl n ⟨c.i + 1, page⟩
    else slot_loop g avail func pl n { c with i := c.i + 1 }

/-- The outer loop `for (pl = page_list.next; pl != &page_list; pl = pl->next)`. The
`break` of the inner loop leaves the inner loop only, so the next block is visited in
every case. Returns the cursor `pl` (`none` is `&page_list`) and the locals. -/
def block_loop (g : Geometry) (avail : Nat → Nat → Bool) (func : Nat) :
    List page_info → Locals → Option Nat × Locals
  | [], c => (none, c)
  | pl :: rest, c =>
    block_loop g avail func rest (slot_loop g avail func pl g.max_num_pages { c with i := 0 })

/-- The assignments `pl->used[i] = 1; pl->num_used++` on the block at address `pl`. -/
def mark_used (pl : Nat) (i : Nat) : List page_info → List page_info
  | [] => []
  | b :: rest =>
    if b.base = pl then { b with used := b.used.set i 1, num_used := b.num_used + 1 } :: rest
    else b :: mark_used pl i rest

/-- `duckhook_page_alloc`: returns `*page_out` or the error code, and the new state.
`none` only when the scan of `alloc_page_info` exceeds `fuel` iterations. The initial
values of `i` and `page` are indeterminate in the source; they are assigned before every
use. -/
def duckhook_page_alloc (g : Geometry) (avail : Nat → Nat → Bool) (os : OS) (fuel : Nat)
    (st : State) (func : Nat) : Option (Except Err Nat × State) :=
  match block_loop g avail func st.page_list ⟨0, 0⟩ with
  | (some pl, c) =>
    if os.commit c.page then
      some (.ok c.page, { st with page_list := mark_used pl c.i st.page_list })
    else some (.error .DUCKHOOK_ERROR_INTERNAL_ERROR, st)
  | (none, _) =>
    /- no page_list is available. -/
    match alloc_page_info g os fuel st func with
    | none => none
    | some (.error rv, st1) => some (.error rv, st1)
    | some (.ok pl, st1) =>
      let i := 0
      let page := (pl + g.page_size) % g.W
      if os.commit page then
        some (.ok page, { st1 with page_list := mark_used pl i st1.page_list })
      else some (.error .DUCKHOOK_ERROR_INTERNAL_ERROR, st1)

/-! ## `duckhook_page_free` -/

/-- The assignments `pl->num_used--; pl->used[idx] = 0` on the block at address `pl`. -/
def mark_free (pl : Nat) (idx : Nat) : List page_info → List page_info
  | [] => []
  | b :: rest =>
    if b.base = pl then { b with num_used := b.num_used - 1, used := b.used.set idx 0 } :: rest
    else b :: mark_free pl idx rest

/-- The block at address `pl`, if it is linked. -/
def lookup (pl : Nat) (l : List page_info) : Option page_info :=
  l.find? (fun b => b.base = pl)

/-- The unlinking `pl->next->prev = pl->prev; pl->prev->next = pl->next`. -/
def unlink (pl : Nat) (l : List page_info) : List page_info :=
  l.eraseP (fun b => b.base = pl)

/-- The owning block `(size_t)page & ~(allocation_unit - 1)` computed by
`duckhook_page_free`. -/
def page_owner (g : Geometry) (page : Nat) : Nat :=
  page % g.W &&& not_w g.W (sub_w g.W g.allocation_unit 1)

/-- The slot index `((size_t)page - (size_t)pl) / page_size - 1` computed by
`duckhook_page_free`. -/
def page_index (g : Geometry) (page pl : Nat) : Nat :=
  sub_w g.W (sub_w g.W page pl / g.page_size) 1

/-- `duckhook_page_free`: returns the return value (0 or -1) and the new state. The call
of `duckhook_log` that follows the decommit reads `pl->num_used` before the result of the
decommit is tested, and the later statements write through `pl`: the result is `none`
when `pl` is not the address of a linked control structure, the source then going through
a pointer into memory the registry does not own. -/
def duckhook_page_free (g : Geometry) (os : OS) (st : State) (page : Nat) :
    Option (Int × State) :=
  let pl := page_owner g page
  let idx := page_index g page pl
  let ok := os.decommit page
  match lookup pl st.page_list with
  | none => none
  | some b =>
    if !ok then some (-1, st)
    else if b.num_used - 1 ≠ 0 then
      some (0, { st with page_list := mark_free pl idx st.page_list })
    else
      /- all pages are decommitted. delete this page_list -/
      let l := unlink pl (mark_free pl idx st.page_list)
      if os.release pl then some (0, ⟨l, st.reserved.erase pl⟩)
      else some (-1, { st with page_list := l })

/-! ## Sequences of calls -/

/-- Number of non-zero entries of an occupancy array. -/
def count_used (used : List Nat) : Nat := (used.filter (fun c => c ≠ 0)).length

/-- Sanity of the geometry: the allocation unit is a power of two that fits a `size_t`,
the page size is positive and `max_num_pages = allocation_unit / page_size - 1` is at
least 1 (Windows reports 64K and 4K, hence 15). -/
structure GeomOK (g : Geometry) : Prop where
  pow2 : ∃ k, g.allocation_unit = 2 ^ k
  lt_W : g.allocation_unit < g.W
  ps_pos : 0 < g.page_size
  max_eq : g.max_num_pages = g.allocation_unit / g.page_size - 1
  max_pos : 1 ≤ g.max_num_pages

/-- What Windows guarantees about a successful `VirtualAlloc(_, allocation_unit,
MEM_RESERVE, _)`: the base is a multiple of the allocation granularity, the unit lies
inside the address space and it is not a reservation that is still held. -/
def OS_ok (g : Geometry) (st : State) (os : OS) : Prop :=
  ∀ hint pl, os.reserve hint = some pl →
    g.allocation_unit ∣ pl ∧ pl + g.allocation_unit ≤ g.W ∧ pl ∉ st.reserved

/-- The states reachable from the empty registry by calls of `duckhook_page_alloc` and
`duckhook_page_free` that return, together with the list of live pages: the pages handed
out by `duckhook_page_alloc` and not yet decommitted by `duckhook_page_free`. The page
given to `duckhook_page_free` is live; the outcomes of the Windows calls, the target and
the fitness test `duckhook_page_avail` are arbitrary in each call. -/
inductive Reachable (g : Geometry) : State → List Nat → Prop
  | empty : Reachable g State.empty []
  | alloc_ok {st st' : State} {live : List Nat} {avail : Nat → Nat → Bool} {os : OS}
      {fuel func page : Nat} :
      Reachable g st live → OS_ok g st os →
      duckhook_page_alloc g avail os fuel st func = some (.ok page, st') →
      Reachable g st' (page :: live)
  | alloc_error {st st' : State} {live : List Nat} {avail : Nat → Nat → Bool} {os : OS}
      {fuel func : Nat} {rv : Err} :
      Reachable g st live → OS_ok g st os →
      duckhook_page_alloc g avail os fuel st func = some (.error rv, st') →
      Reachable g st' live
  | free {st st' : State} {live : List Nat} {os : OS} {page : Nat} {rv : Int} :
      Reachable g st live → page ∈ live →
      duckhook_page_free g os st page = some (rv, st') →
      Reachable g st' (if os.decommit page then live.erase page else live)

/-- `duckhook_page_free` called on each page of a list in turn, as long as it returns 0. -/
def free_pages (g : Geometry) (os : OS) : State → List Nat → Option State
  | st, [] => some st
  | st, page :: rest =>
    match duckhook_page_free g os st page with
    | some (0, st') => free_pages g os st' rest
    | _ => none

/-! ## A concrete process -/

/-- The geometry of 64-bit Windows: 64K allocation granularity, 4K pages, 15 slots. -/
def demo_geometry : Geometry := ⟨65536, 4096, 15, true⟩

/-- An address space in which `[0x400000, 0x401000)` is in use and `[0x401000, 0x500000)`
is free. -/
def demo_query (a : Nat) : Option MEMORY_BASIC_INFORMATION :=
  if a < 0x400000 then none
  else if a < 0x401000 then some ⟨0x400000, 0x1000, false⟩
  else if a < 0x500000 then some ⟨0x401000, 0xFF000, true⟩
  else none

/-- The same address space once `[0x410000, 0x420000)` has been reserved. -/
def demo_query2 (a : Nat) : Option MEMORY_BASIC_INFORMATION :=
  if a < 0x400000 then none
  else if a < 0x401000 then some ⟨0x400000, 0x1000, false⟩
  else if a < 0x410000 then some ⟨0x401000, 0xF000, true⟩
  else if a < 0x420000 then some ⟨0x410000, 0x10000, false⟩
  else if a < 0x500000 then some ⟨0x420000, 0xE0000, true⟩
  else none

/-- An address space in which `[0x400000, 0x90000000)` is in use and the 1 MiB behind it
is free. -/
def demo_query_far (a : Nat) : Option MEMORY_BASIC_INFORMATION :=
  if a < 0x400000 then none
  else if a < 0x90000000 then some ⟨0x400000, 0x8FC00000, false⟩
  else if a < 0x90100000 then some ⟨0x90000000, 0x100000, true⟩
  else none

/-- A reservation that succeeds exactly when asked for the unit at `base`. -/
def demo_reserve (base hint : Nat) : Option Nat := if hint = base then some base else none

/-- Windows calls that all succeed, the free unit being the one at `base`. -/
def demo_os (query : Nat → Option MEMORY_BASIC_INFORMATION) (base : Nat) : OS :=
  ⟨query, demo_reserve base, fun _ => true, fun _ => true, fun _ => true⟩

/-- As `demo_os demo_query 0x410000`, but committing the page at `0x411000` fails. -/
def demo_os_commit_fails : OS :=
  ⟨demo_query, demo_reserve 0x410000, fun a => decide (a ≠ 0x411000), fun _ => true,
    fun _ => true⟩

/-- As `demo_os demo_query2 0x420000`, but the release of a reservation fails. -/
def demo_os_release_fails : OS :=
  ⟨demo_query2, demo_reserve 0x420000, fun _ => true, fun _ => true, fun _ => false⟩

/-- As `demo_os demo_query2 0x420000`, but the decommit of a page fails. -/
def demo_os_decommit_fails : OS :=
  ⟨demo_query2, demo_reserve 0x420000, fun _ => true, fun _ => false, fun _ => true⟩

/-- A fitness test enforcing a window of `2 ^ 31` bytes around the target. -/
def demo_window (page func : Nat) : Bool :=
  decide (page < func + 2 ^ 31 ∧ func < page + 2 ^ 31)

/-- Occupancy array of 15 slots with only slot 0 in use. -/
def demo_used_first : List Nat := 1 :: List.replicate 14 0

/-- The registry after one successful allocation in the demo process. -/
def demo_state1 : State := ⟨[⟨0x410000, 1, demo_used_first⟩], [0x410000]⟩

/-- A registry holding one block all of whose 15 slots are in use. -/
def demo_full : State := ⟨[⟨0x410000, 15, List.replicate 15 1⟩], [0x410000]⟩

/-- The 15 pages of the block of `demo_full`. -/
def demo_full_pages : List Nat := (List.range 15).map (fun i => 0x410000 + (i + 1) * 4096)

/-- The block at the head of the registry after a successful `duckhook_page_alloc` that
reserved it at `pl`: slot 0 in use, every other slot free. -/
def page_info.first_used (g : Geometry) (pl : Nat) : page_info :=
  ⟨pl, 1, (List.replicate g.max_num_pages 0).set 0 1⟩

/-- The invariant kept by every call: each linked block has an occupancy array of
`max_num_pages` entries of which `num_used` are non-zero, sits at an aligned base inside
the address space and holds its reservation; the bases are pairwise different; every live
page is the page of a slot in use of a linked block; no page is live twice. -/
structure Inv (g : Geometry) (st : State) (live : List Nat) : Prop where
  wf : ∀ b ∈ st.page_list, b.used.length = g.max_num_pages ∧
    b.num_used = (count_used b.used : Int) ∧ g.allocation_unit ∣ b.base ∧
    b.base + g.allocation_unit ≤ g.W ∧ b.base ∈ st.reserved
  nodup : (st.page_list.map page_info.base).Nodup
  live_slot : ∀ p ∈ live, ∃ b ∈ st.page_list, ∃ i, i < g.max_num_pages ∧
    p = b.base + (i + 1) * g.page_size ∧ b.used.getD i 0 ≠ 0
  live_nodup : live.Nodup

/-! ## Protection -/

/-- The Windows protection flag `PAGE_NOACCESS`. -/
def PAGE_NOACCESS : Nat := 0x01

/-- The Windows protection flag `PAGE_READONLY`. -/
def PAGE_READONLY : Nat := 0x02

/-- The Windows protection flag `PAGE_READWRITE`. -/
def PAGE_READWRITE : Nat := 0x04

/-- The Windows protection flag `PAGE_EXECUTE_READ`. -/
def PAGE_EXECUTE_READ : Nat := 0x20

/-- The Windows protection flag `PAGE_EXECUTE_READWRITE`. -/
def PAGE_EXECUTE_READWRITE : Nat := 0x40

/-- Modelled from the spec: the structure `mem_state_t` of `duckhook_internal.h`, which is
not part of the sources at hand; the snapshot of a scoped unprotect, with the three fields
the source reads and writes: the page-aligned address, the length and the prior flags. -/
structure mem_state_t where
  addr : Nat
  size : Nat
  protect : Nat
  deriving DecidableEq, Repr

/-- Page number `n`, the page `[n * page_size, (n + 1) * page_size)`, holds a byte of
`[addr, addr + size)`. -/
def in_range (page_size addr size n : Nat) : Bool :=
  decide (n * page_size < addr + size ∧ addr < (n + 1) * page_size)

/-- `VirtualProtect(addr, size, newp, lpflOldProtect)` on a map from page numbers to
protection flags. `lpflOldProtect` tells whether the last argument points to a variable:
Windows documents that the call fails when it is `NULL`. `ok` is the outcome the
environment gives to a call with a valid last argument. On success every page holding a
byte of the range gets the flags `newp` and the flags the first page of the range had
before are reported. -/
def VirtualProtect (page_size : Nat) (ok : Bool) (prot : Nat → Nat) (addr size newp : Nat)
    (lpflOldProtect : Bool) : Option ((Nat → Nat) × Nat) :=
  if ok && lpflOldProtect then
    some (fun n => if in_range page_size addr size n then newp else prot n,
      prot (addr / page_size))
  else none

/-- `duckhook_page_protect`: the return value and the new protection map. The source
passes `NULL` as last argument of `VirtualProtect`. -/
def duckhook_page_protect (g : Geometry) (ok : Bool) (prot : Nat → Nat) (page : Nat) :
    Int × (Nat → Nat) :=
  match VirtualProtect g.page_size ok prot page g.page_size PAGE_EXECUTE_READ false with
  | some (prot1, _) => (0, prot1)
  | none => (-1, prot)

/-- `duckhook_page_unprotect`: the return value and the new protection map. The source
passes `NULL` as last argument of `VirtualProtect`. -/
def duckhook_page_unprotect (g : Geometry) (ok : Bool) (prot : Nat → Nat) (page : Nat) :
    Int × (Nat → Nat) :=
  match VirtualProtect g.page_size ok prot page g.page_size PAGE_READWRITE false with
  | some (prot1, _) => (0, prot1)
  | none => (-1, prot)

/-- `duckhook_unprotect_begin`: the return value, `*mstate` and the new protection map.
The last argument of `VirtualProtect` is `&mstate->protect`, written on success only. -/
def duckhook_unprotect_begin (g : Geometry) (ok : Bool) (prot : Nat → Nat)
    (mstate : mem_state_t) (start len : Nat) : Int × mem_state_t × (Nat → Nat) :=
  let saddr := ROUND_DOWN start g.page_size % g.W
  let size1 := sub_w g.W ((len + start) % g.W) saddr
  let size2 := ROUND_UP size1 g.page_size % g.W
  let m1 : mem_state_t := { mstate with addr := saddr, size := size2 }
  match VirtualProtect g.page_size ok prot m1.addr m1.size PAGE_EXECUTE_READWRITE true with
  | some (prot1, old) => (0, { m1 with protect := old }, prot1)
  | none => (-1, m1, prot)

/-- `VirtualQuery` on an address space given as a list of regions: the first region that
holds the address, failure when no region does. -/
def region_query (regions : List MEMORY_BASIC_INFORMATION) (a : Nat) :
    Option MEMORY_BASIC_INFORMATION :=
  regions.find? (fun r => decide (r.BaseAddress ≤ a ∧ a < r.BaseAddress + r.RegionSize))

/-- An address space whose first free region `[0x401000, 0x402000)` is smaller than the
distance to the next allocation boundary `0x410000`; the unit at `0x410000` is in use and
the first region that can hold an aligned unit starts at `0x420000`. -/
def demo_regions_small : List MEMORY_BASIC_INFORMATION :=
  [⟨0x400000, 0x1000, false⟩, ⟨0x401000, 0x1000, true⟩, ⟨0x402000, 0xE000, false⟩,
    ⟨0x410000, 0x10000, false⟩, ⟨0x420000, 0xE0000, true⟩]

/-- Windows calls on `demo_regions_small`: a reservation succeeds only for the free unit
at `0x420000`. -/
def demo_os_small : OS :=
  ⟨region_query demo_regions_small, demo_reserve 0x420000, fun _ => true, fun _ => true,
    fun _ => true⟩

/-- Windows calls in which every query reports the free region `[0x401000, 0x402000)`. -/
def demo_os_one_page : OS :=
  ⟨fun _ => some ⟨0x401000, 0x1000, true⟩, fun hint => some hint, fun _ => true,
    fun _ => true, fun _ => true⟩

/-- A protection map: page `0x400` is executable code, page `0x401` is read-only data,
every other page is inaccessible. -/
def demo_prot (n : Nat) : Nat :=
  if n = 0x400 then PAGE_EXECUTE_READ else if n = 0x401 then PAGE_READONLY else PAGE_NOACCESS

/-- A snapshot before its first use. -/
def demo_mstate : mem_state_t := ⟨0, 0, 0⟩

/-- As `demo_os demo_query 0x410000`, but committing the control page at `0x410000`
fails. -/
def demo_os_control_fails : OS :=
  ⟨demo_query, demo_reserve 0x410000, fun a => decide (a ≠ 0x410000), fun _ => true,
    fun _ => true⟩

/-- As `demo_os_control_fails`, but the release of the reservation is refused as well. -/
def demo_os_control_release_fail : OS :=
  ⟨demo_query, demo_reserve 0x410000, fun a => decide (a ≠ 0x410000), fun _ => true,
    fun _ => false⟩

/-- The test of `alloc_page_info` on a queried region: it is free, `diff >= 0` and
`RegionSize - diff >= allocation_unit`, where `diff` is the distance from the base to the
base rounded up to the allocation unit. -/
def accepts (g : Geometry) (mbi : MEMORY_BASIC_INFORMATION) : Bool :=
  mbi.free &&
    decide (0 ≤ to_int (sub_w g.W (ROUND_UP mbi.BaseAddress g.allocation_unit % g.W)
      mbi.BaseAddress)) &&
    decide (g.allocation_unit ≤ sub_w g.W mbi.RegionSize
      (of_int g.W (to_int (sub_w g.W (ROUND_UP mbi.BaseAddress g.allocation_unit % g.W)
        mbi.BaseAddress))))

/-- The region can hold an aligned allocation unit: it is free and the unit that starts at
its base rounded up to the allocation unit ends inside it. -/
def fits (g : Geometry) (mbi : MEMORY_BASIC_INFORMATION) : Bool :=
  mbi.free &&
    decide (ROUND_UP mbi.BaseAddress g.allocation_unit + g.allocation_unit ≤
      mbi.BaseAddress + mbi.RegionSize)

/-- An address space: finitely many non-empty regions in ascending order, none of which
reaches the end `W` of the machine word. -/
def regions_ok (W : Nat) (regions : List MEMORY_BASIC_INFORMATION) : Prop :=
  (∀ r ∈ regions, 0 < r.RegionSize ∧ r.BaseAddress + r.RegionSize < W) ∧
    regions.Pairwise (fun r1 r2 => r1.BaseAddress + r1.RegionSize ≤ r2.BaseAddress)

/-- Number of regions that end behind the address `a`. -/
def regions_behind (regions : List MEMORY_BASIC_INFORMATION) (a : Nat) : Nat :=
  regions.countP (fun r => decide (a < r.BaseAddress + r.RegionSize))

/-- An address space made of two used regions that together cover the whole 64-bit word. -/
def demo_regions_wrap : List MEMORY_BASIC_INFORMATION :=
  [⟨0, 2 ^ 63, false⟩, ⟨2 ^ 63, 2 ^ 63, false⟩]

/-- Windows calls on `demo_regions_wrap`. -/
def demo_os_wrap : OS :=
  ⟨region_query demo_regions_wrap, fun _ => none, fun _ => true, fun _ => true,
    fun _ => true⟩

/-- An address space with a used region, a free region too short for an aligned unit, a
used region and a free region that can hold an aligned unit at `0x420000`. -/
def demo_regions : List MEMORY_BASIC_INFORMATION :=
  [⟨0x400000, 0x1000, false⟩, ⟨0x401000, 0xF000, true⟩, ⟨0x410000, 0x10000, false⟩,
    ⟨0x420000, 0xE0000, true⟩]

/-- Windows calls on `demo_regions`, the free unit being the one at `0x420000`. -/
def demo_os_regions : OS :=
  ⟨region_query demo_regions, demo_reserve 0x420000, fun _ => true, fun _ => true,
    fun _ => true⟩

/-- Every address of `[lo, hi)` lies in a region: the query succeeds there. -/
def covered (regions : List MEMORY_BASIC_INFORMATION) (lo hi : Nat) : Prop :=
  ∀ x, lo ≤ x → x < hi → region_query regions x ≠ none

/-- The region `r` is the first one at or behind `hint` that passes the test of
`alloc_page_info`, and the query succeeds at every address from `hint` to its end. -/
def first_accepted (g : Geometry) (regions : List MEMORY_BASIC_INFORMATION) (hint : Nat)
    (r : MEMORY_BASIC_INFORMATION) : Prop :=
  r ∈ regions ∧ hint < r.BaseAddress + r.RegionSize ∧ accepts g r = true ∧
    covered regions hint (r.BaseAddress + r.RegionSize) ∧
    ∀ r1 ∈ regions, hint < r1.BaseAddress + r1.RegionSize →
      r1.BaseAddress < r.BaseAddress → accepts g r1 = false

/-- The address `a` is the first one at or behind `hint` at which the query fails, and no
region before it passes the test of `alloc_page_info`. -/
def first_failure (g : Geometry) (regions : List MEMORY_BASIC_INFORMATION) (hint a : Nat) :
    Prop :=
  hint ≤ a ∧ region_query regions a = none ∧ covered regions hint a ∧
    ∀ r1 ∈ regions, hint < r1.BaseAddress + r1.RegionSize →
      r1.BaseAddress < a → accepts g r1 = false

/-! ## Machine arithmetic: lemmas -/

theorem testBit_pow_sub_pow (n k i : Nat) (hk : k ≤ n) :
    (2 ^ n - 2 ^ k).testBit i = (decide (k ≤ i) && decide (i < n)) := by
  have h : 2 ^ n - 2 ^ k = (2 ^ (n - k) - 1) <<< k := by
    rw [Nat.shiftLeft_eq, Nat.sub_mul, one_mul, ← pow_add, Nat.sub_add_cancel hk]
  rw [h, Nat.testBit_shiftLeft, Nat.testBit_two_pow_sub_one]
  by_cases h1 : k ≤ i
  · by_cases h2 : i < n
    · have : i - k < n - k := by omega
      simp [h1, h2, this]
    · have : ¬ (i - k < n - k) := by omega
      simp [h1, h2, this]
  · simp [h1]

theorem land_pow_sub_pow (n k x : Nat) (hk : k ≤ n) (hx : x < 2 ^ n) :
    x &&& (2 ^ n - 2 ^ k) = x - x % 2 ^ k := by
  have h : x - x % 2 ^ k = (x >>> k) <<< k := by
    rw [Nat.shiftLeft_eq, Nat.shiftRight_eq_div_pow]
    have := Nat.div_add_mod x (2 ^ k)
    have h2 : x / 2 ^ k * 2 ^ k = 2 ^ k * (x / 2 ^ k) := Nat.mul_comm _ _
    omega
  rw [h]
  apply Nat.eq_of_testBit_eq
  intro i
  rw [Nat.testBit_and, testBit_pow_sub_pow n k i hk, Nat.testBit_shiftLeft, Nat.testBit_shiftRight]
  by_cases h1 : k ≤ i
  · by_cases h2 : i < n
    · simp [h1, h2, Nat.add_sub_cancel' h1]
    · have h3 : x < 2 ^ i := lt_of_lt_of_le hx (Nat.pow_le_pow_right (by norm_num) (by omega))
      simp [h1, h2, Nat.testBit_lt_two_pow h3, Nat.add_sub_cancel' h1]
  · simp [h1]

theorem slot_offset_le (g : Geometry)
    (hmax : g.max_num_pages = g.allocation_unit / g.page_size - 1) (i : Nat)
    (hi : i < g.max_num_pages) :
    (i + 1) * g.page_size + g.page_size ≤ g.allocation_unit := by
  have h1 : i + 2 ≤ g.allocation_unit / g.page_size := by
    omega
  calc (i + 1) * g.page_size + g.page_size = (i + 2) * g.page_size := by ring
    _ ≤ g.allocation_unit / g.page_size * g.page_size := Nat.mul_le_mul_right _ h1
    _ ≤ g.allocation_unit := Nat.div_mul_le_self _ _

theorem W_pos (g : Geometry) : 2 ≤ g.W := by
  unfold Geometry.W Geometry.bits
  split <;> norm_num

/-- The block address computed by `duckhook_page_free` from a page of a block. -/
theorem page_block (g : Geometry) (hg : GeomOK g) (base off : Nat)
    (hal : g.allocation_unit ∣ base) (hin : base + g.allocation_unit ≤ g.W)
    (hoff : off < g.allocation_unit) :
    (base + off) % g.W &&& not_w g.W (sub_w g.W g.allocation_unit 1) = base := by
  obtain ⟨k, hk⟩ := hg.pow2
  have hW := W_pos g
  have hlt := hg.lt_W
  have hau : 1 ≤ g.allocation_unit := by rw [hk]; exact Nat.one_le_two_pow
  have h1 : sub_w g.W g.allocation_unit 1 = g.allocation_unit - 1 := by
    unfold sub_w
    rw [Nat.mod_eq_of_lt hlt, Nat.mod_eq_of_lt (by omega : 1 < g.W)]
    have : g.allocation_unit + g.W - 1 = g.allocation_unit - 1 + g.W := by omega
    rw [this, Nat.add_mod_right, Nat.mod_eq_of_lt (by omega)]
  have h2 : not_w g.W (g.allocation_unit - 1) = g.W - g.allocation_unit := by
    unfold not_w
    rw [Nat.mod_eq_of_lt (by omega)]
    omega
  rw [h1, h2, Nat.mod_eq_of_lt (by omega)]
  have hkn : k ≤ g.bits := by
    have : (2:Nat) ^ k < 2 ^ g.bits := by rw [← hk]; exact hlt
    exact le_of_lt ((Nat.pow_lt_pow_iff_right (by norm_num)).1 this)
  have hx : base + off < 2 ^ g.bits := by
    have : g.W = 2 ^ g.bits := rfl
    omega
  have := land_pow_sub_pow g.bits k (base + off) hkn hx
  have hWe : g.W = 2 ^ g.bits := rfl
  rw [hWe, hk, this, ← hk]
  obtain ⟨c, hc⟩ := hal
  have : (base + off) % g.allocation_unit = off := by
    rw [hc, Nat.mul_add_mod, Nat.mod_eq_of_lt hoff]
  omega

theorem sub_w_eq (W a b : Nat) (ha : a < W) (hb : b ≤ a) : sub_w W a b = a - b := by
  unfold sub_w
  rw [Nat.mod_eq_of_lt ha, Nat.mod_eq_of_lt (lt_of_le_of_lt hb ha)]
  have : a + W - b = a - b + W := by omega
  rw [this, Nat.add_mod_right, Nat.mod_eq_of_lt (by omega)]

/-- The slot index computed by `duckhook_page_free` from a page of a block. -/
theorem page_slot (g : Geometry) (hg : GeomOK g) (base i : Nat)
    (hin : base + g.allocation_unit ≤ g.W) (hi : i < g.max_num_pages) :
    sub_w g.W (sub_w g.W (base + (i + 1) * g.page_size) base / g.page_size) 1 = i := by
  have hoff := slot_offset_le g hg.max_eq i hi
  have hps := hg.ps_pos
  have hW := W_pos g
  rw [sub_w_eq g.W (base + (i + 1) * g.page_size) base (by omega) (by omega),
    Nat.add_sub_cancel_left, Nat.mul_div_cancel _ hps]
  have hi2 : i + 1 < g.W := by
    have : i + 1 ≤ (i + 1) * g.page_size := Nat.le_mul_of_pos_right _ hps
    omega
  rw [sub_w_eq _ _ _ hi2 (by omega)]
  omega

/-! ## The registry as a list: lemmas -/

theorem lookup_append (pl : Nat) (pre post : List page_info) (b : page_info)
    (hb : b.base = pl) (hpre : ∀ x ∈ pre, x.base ≠ pl) :
    lookup pl (pre ++ b :: post) = some b := by
  induction pre with
  | nil => simp [lookup, hb]
  | cons x xs ih =>
    have hx : x.base ≠ pl := hpre x (List.mem_cons_self _ _)
    have := ih (fun y hy => hpre y (List.mem_cons_of_mem _ hy))
    simpa [lookup, hx] using this

theorem mark_free_append (pl idx : Nat) (pre post : List page_info) (b : page_info)
    (hb : b.base = pl) (hpre : ∀ x ∈ pre, x.base ≠ pl) :
    mark_free pl idx (pre ++ b :: post) =
      pre ++ { b with num_used := b.num_used - 1, used := b.used.set idx 0 } :: post := by
  induction pre with
  | nil => simp [mark_free, hb]
  | cons x xs ih =>
    have hx : x.base ≠ pl := hpre x (List.mem_cons_self _ _)
    have := ih (fun y hy => hpre y (List.mem_cons_of_mem _ hy))
    simp [mark_free, hx, this]

theorem unlink_append (pl : Nat) (pre post : List page_info) (b : page_info)
    (hb : b.base = pl) (hpre : ∀ x ∈ pre, x.base ≠ pl) :
    unlink pl (pre ++ b :: post) = pre ++ post := by
  induction pre with
  | nil => simp [unlink, hb]
  | cons x xs ih =>
    have hx : x.base ≠ pl := hpre x (List.mem_cons_self _ _)
    have := ih (fun y hy => hpre y (List.mem_cons_of_mem _ hy))
    simp only [unlink] at this
    simp [unlink, hx, this]

theorem block_loop_cursor (g : Geometry) (avail : Nat → Nat → Bool) (func : Nat)
    (l : List page_info) (c : Locals) : (block_loop g avail func l c).1 = none := by
  induction l generalizing c with
  | nil => rfl
  | cons b rest ih => exact ih _

/-- The result of `duckhook_page_free` on a page for which the computed owner is the
linked block `B` and the computed slot is `i`. -/
theorem page_free_at (g : Geometry) (os : OS) (pre post : List page_info) (B : page_info)
    (reserved : List Nat) (page i : Nat) (hown : page_owner g page = B.base)
    (hidx : page_index g page B.base = i) (hpre : ∀ x ∈ pre, x.base ≠ B.base) :
    duckhook_page_free g os ⟨pre ++ B :: post, reserved⟩ page =
      if os.decommit page = false then some (-1, ⟨pre ++ B :: post, reserved⟩)
      else if B.num_used - 1 ≠ 0 then
        some (0, ⟨pre ++ { B with num_used := B.num_used - 1, used := B.used.set i 0 } :: post,
                  reserved⟩)
      else if os.release B.base then some (0, ⟨pre ++ post, reserved.erase B.base⟩)
      else some (-1, ⟨pre ++ post, reserved⟩) := by
  unfold duckhook_page_free
  simp only [hown, hidx, lookup_append B.base pre post B rfl hpre,
    mark_free_append B.base i pre post B rfl hpre]
  by_cases hd : os.decommit page = false
  · simp [hd]
  · simp only [Bool.not_eq_false] at hd
    simp only [hd]
    by_cases hn : B.num_used - 1 ≠ 0
    · simp [hn]
    · have hu := unlink_append B.base pre post
        { B with num_used := B.num_used - 1, used := B.used.set i 0 } rfl hpre
      simp only [hu]
      by_cases hr : os.release B.base <;> simp [hn, hr]

/-- The result of `duckhook_page_free` on the page of slot `i` of a linked block `B`. -/
theorem page_free_eval (g : Geometry) (hg : GeomOK g) (os : OS) (pre post : List page_info)
    (B : page_info) (reserved : List Nat) (i : Nat) (hi : i < g.max_num_pages)
    (hal : g.allocation_unit ∣ B.base) (hin : B.base + g.allocation_unit ≤ g.W)
    (hpre : ∀ x ∈ pre, x.base ≠ B.base) :
    duckhook_page_free g os ⟨pre ++ B :: post, reserved⟩ (B.base + (i + 1) * g.page_size) =
      if os.decommit (B.base + (i + 1) * g.page_size) = false then
        some (-1, ⟨pre ++ B :: post, reserved⟩)
      else if B.num_used - 1 ≠ 0 then
        some (0, ⟨pre ++ { B with num_used := B.num_used - 1, used := B.used.set i 0 } :: post,
                  reserved⟩)
      else if os.release B.base then some (0, ⟨pre ++ post, reserved.erase B.base⟩)
      else some (-1, ⟨pre ++ post, reserved⟩) := by
  have hoff := slot_offset_le g hg.max_eq i hi
  have hps := hg.ps_pos
  exact page_free_at g os pre post B reserved _ i
    (page_block g hg B.base ((i + 1) * g.page_size) hal hin (by omega))
    (page_slot g hg B.base i hin hi) hpre

/-! ## `duckhook_page_alloc`: lemmas -/

theorem alloc_page_info_ok (g : Geometry) (os : OS) (fuel : Nat) (st st1 : State)
    (hint pl : Nat) (h : alloc_page_info g os fuel st hint = some (.ok pl, st1)) :
    (∃ a, os.reserve a = some pl) ∧ os.commit pl = true ∧
      st1 = ⟨page_info.fresh g pl :: st.page_list, pl :: st.reserved⟩ := by
  unfold alloc_page_info at h
  split at h
  · simp at h
  · simp at h
  · rename_i a _
    split at h
    · simp at h
    · rename_i pl' hres
      split at h
      · rename_i hc
        simp only [Option.some.injEq, Prod.mk.injEq, Except.ok.injEq] at h
        obtain ⟨h1, h2⟩ := h
        subst h1
        exact ⟨⟨a, hres⟩, hc, h2.symm⟩
      · simp at h

theorem alloc_page_info_error (g : Geometry) (os : OS) (fuel : Nat) (st st1 : State)
    (hint : Nat) (e : Err) (h : alloc_page_info g os fuel st hint = some (.error e, st1)) :
    st1 = st ∨ ∃ a pl, os.reserve a = some pl ∧ os.commit pl = false ∧
      os.release pl = false ∧ st1 = ⟨st.page_list, pl :: st.reserved⟩ := by
  unfold alloc_page_info at h
  split at h
  · simp at h
  · simp only [Option.some.injEq, Prod.mk.injEq] at h
    exact Or.inl h.2.symm
  · rename_i a _
    split at h
    · simp only [Option.some.injEq, Prod.mk.injEq] at h
      exact Or.inl h.2.symm
    · rename_i pl' hres
      split at h
      · simp at h
      · rename_i hc
        simp only [Option.some.injEq, Prod.mk.injEq] at h
        by_cases hr : os.release pl' = true
        · left
          rw [← h.2]
          simp [hr]
        · right
          refine ⟨a, pl', hres, by simpa using hc, by simpa using hr, ?_⟩
          rw [← h.2]
          simp [hr]

/-- Every result of `duckhook_page_alloc` comes from the branch taken when the cursor is
back at the sentinel. -/
theorem page_alloc_eval (g : Geometry) (avail : Nat → Nat → Bool) (os : OS) (fuel : Nat)
    (st : State) (func : Nat) :
    duckhook_page_alloc g avail os fuel st func =
      match alloc_page_info g os fuel st func with
      | none => none
      | some (.error rv, st1) => some (.error rv, st1)
      | some (.ok pl, st1) =>
        if os.commit ((pl + g.page_size) % g.W) then
          some (.ok ((pl + g.page_size) % g.W),
            { st1 with page_list := mark_used pl 0 st1.page_list })
        else some (.error .DUCKHOOK_ERROR_INTERNAL_ERROR, st1) := by
  unfold duckhook_page_alloc
  have hc := block_loop_cursor g avail func st.page_list ⟨0, 0⟩
  split
  · rename_i pl c heq
    rw [heq] at hc
    simp at hc
  · rfl

theorem page_alloc_ok (g : Geometry) (avail : Nat → Nat → Bool) (os : OS) (fuel : Nat)
    (st st' : State) (func page : Nat)
    (h : duckhook_page_alloc g avail os fuel st func = some (.ok page, st')) :
    ∃ pl, (∃ a, os.reserve a = some pl) ∧ page = (pl + g.page_size) % g.W ∧
      st' = ⟨page_info.first_used g pl :: st.page_list, pl :: st.reserved⟩ := by
  rw [page_alloc_eval] at h
  split at h
  · simp at h
  · simp at h
  · rename_i pl st1 hinfo
    obtain ⟨hres, -, hst1⟩ := alloc_page_info_ok g os fuel st st1 func pl hinfo
    split at h
    · simp only [Option.some.injEq, Prod.mk.injEq, Except.ok.injEq] at h
      refine ⟨pl, hres, h.1.symm, ?_⟩
      rw [← h.2, hst1]
      simp [mark_used, page_info.fresh, page_info.first_used]
    · simp at h

theorem page_alloc_error (g : Geometry) (avail : Nat → Nat → Bool) (os : OS) (fuel : Nat)
    (st st' : State) (func : Nat) (rv : Err)
    (h : duckhook_page_alloc g avail os fuel st func = some (.error rv, st')) :
    st' = st ∨ ∃ pl, (∃ a, os.reserve a = some pl) ∧
      (st' = ⟨st.page_list, pl :: st.reserved⟩ ∨
        st' = ⟨page_info.fresh g pl :: st.page_list, pl :: st.reserved⟩) := by
  rw [page_alloc_eval] at h
  split at h
  · simp at h
  · rename_i rv1 st1 hinfo
    simp only [Option.some.injEq, Prod.mk.injEq] at h
    rcases alloc_page_info_error g os fuel st st1 func rv1 hinfo with h1 | ⟨a, pl, hres, -, -, h1⟩
    · exact Or.inl (by rw [← h.2, h1])
    · exact Or.inr ⟨pl, ⟨a, hres⟩, Or.inl (by rw [← h.2, h1])⟩
  · rename_i pl st1 hinfo
    obtain ⟨hres, -, hst1⟩ := alloc_page_info_ok g os fuel st st1 func pl hinfo
    split at h
    · simp at h
    · simp only [Option.some.injEq, Prod.mk.injEq] at h
      exact Or.inr ⟨pl, hres, Or.inr (by rw [← h.2, hst1])⟩

/-! ## Occupancy arrays: lemmas -/

theorem count_used_nil : count_used [] = 0 := rfl

theorem count_used_cons (c : Nat) (l : List Nat) :
    count_used (c :: l) = (if c ≠ 0 then 1 else 0) + count_used l := by
  unfold count_used
  by_cases h : c = 0
  · simp [h]
  · simp [h, List.filter_cons, Nat.add_comm]

theorem count_used_replicate_zero (n : Nat) : count_used (List.replicate n 0) = 0 := by
  induction n with
  | zero => rfl
  | succ n ih => rw [List.replicate_succ, count_used_cons, ih]; simp

theorem count_used_first (n : Nat) (hn : 1 ≤ n) :
    count_used ((List.replicate n 0).set 0 1) = 1 := by
  obtain ⟨m, rfl⟩ : ∃ m, n = m + 1 := ⟨n - 1, by omega⟩
  rw [List.replicate_succ, List.set_cons_zero, count_used_cons, count_used_replicate_zero]
  simp

theorem count_used_set_zero (used : List Nat) (i : Nat) (h : used.getD i 0 ≠ 0) :
    count_used (used.set i 0) + 1 = count_used used := by
  induction used generalizing i with
  | nil => simp at h
  | cons c l ih =>
    cases i with
    | zero =>
      simp only [List.getD_cons_zero] at h
      rw [List.set_cons_zero, count_used_cons, count_used_cons]
      simp [h]
      omega
    | succ j =>
      simp only [List.getD_cons_succ] at h
      rw [List.set_cons_succ, count_used_cons, count_used_cons, ← ih j h]
      omega

theorem count_used_pos (used : List Nat) (j : Nat) (h : used.getD j 0 ≠ 0) :
    1 ≤ count_used used := by
  have := count_used_set_zero used j h
  omega

theorem getD_set_ne (used : List Nat) (i j v : Nat) (h : i ≠ j) :
    (used.set i v).getD j 0 = used.getD j 0 := by
  simp [List.getD_eq_getElem?_getD, List.getElem?_set_ne h]

/-! ## The invariant is kept by every call -/

theorem aligned_unique (au x y o1 o2 : Nat) (hx : au ∣ x) (hy : au ∣ y) (h1 : o1 < au)
    (h2 : o2 < au) (h : x + o1 = y + o2) : x = y := by
  obtain ⟨c, rfl⟩ := hx
  obtain ⟨d, rfl⟩ := hy
  have e1 : (au * c + o1) % au = o1 := by rw [Nat.mul_add_mod, Nat.mod_eq_of_lt h1]
  have e2 : (au * d + o2) % au = o2 := by rw [Nat.mul_add_mod, Nat.mod_eq_of_lt h2]
  rw [h, e2] at e1
  omega

theorem bases_split (pre post : List page_info) (b : page_info)
    (h : ((pre ++ b :: post).map page_info.base).Nodup) :
    (∀ x ∈ pre, x.base ≠ b.base) ∧ (∀ x ∈ post, x.base ≠ b.base) := by
  rw [List.map_append, List.map_cons, List.nodup_append] at h
  obtain ⟨-, h2, h3⟩ := h
  rw [List.nodup_cons] at h2
  constructor
  · intro x hx heq
    exact h3 (List.mem_map_of_mem _ hx) (by rw [heq]; exact List.mem_cons_self _ _)
  · intro x hx heq
    exact h2.1 (by rw [← heq]; exact List.mem_map_of_mem _ hx)

theorem inv_empty (g : Geometry) : Inv g State.empty [] :=
  ⟨by simp [State.empty], by simp [State.empty], by simp, List.nodup_nil⟩

/-- Linking a block `nb` at a base that was not reserved before keeps the invariant. -/
theorem inv_link (g : Geometry) (st : State) (live : List Nat) (nb : page_info)
    (hinv : Inv g st live) (hlen : nb.used.length = g.max_num_pages)
    (hnum : nb.num_used = (count_used nb.used : Int)) (hal : g.allocation_unit ∣ nb.base)
    (hin : nb.base + g.allocation_unit ≤ g.W) (hnew : nb.base ∉ st.reserved) :
    Inv g ⟨nb :: st.page_list, nb.base :: st.reserved⟩ live := by
  refine ⟨?_, ?_, ?_, hinv.live_nodup⟩
  · intro b hb
    rcases List.mem_cons.1 hb with rfl | hb
    · exact ⟨hlen, hnum, hal, hin, List.mem_cons_self _ _⟩
    · obtain ⟨h1, h2, h3, h4, h5⟩ := hinv.wf b hb
      exact ⟨h1, h2, h3, h4, List.mem_cons_of_mem _ h5⟩
  · rw [List.map_cons, List.nodup_cons]
    refine ⟨?_, hinv.nodup⟩
    intro hmem
    obtain ⟨b, hb, hbase⟩ := List.mem_map.1 hmem
    exact hnew (hbase ▸ (hinv.wf b hb).2.2.2.2)
  · intro p hp
    obtain ⟨b, hb, i, hi⟩ := hinv.live_slot p hp
    exact ⟨b, List.mem_cons_of_mem _ hb, i, hi⟩

/-- Holding one more reservation keeps the invariant. -/
theorem inv_reserve (g : Geometry) (st : State) (live : List Nat) (pl : Nat)
    (hinv : Inv g st live) : Inv g ⟨st.page_list, pl :: st.reserved⟩ live := by
  refine ⟨?_, hinv.nodup, hinv.live_slot, hinv.live_nodup⟩
  intro b hb
  obtain ⟨h1, h2, h3, h4, h5⟩ := hinv.wf b hb
  exact ⟨h1, h2, h3, h4, List.mem_cons_of_mem _ h5⟩

theorem fresh_page_eq (g : Geometry) (hps : 0 < g.page_size)
    (hmax : g.max_num_pages = g.allocation_unit / g.page_size - 1)
    (hpos : 1 ≤ g.max_num_pages) (pl : Nat) (hin : pl + g.allocation_unit ≤ g.W) :
    (pl + g.page_size) % g.W = pl + (0 + 1) * g.page_size := by
  have := slot_offset_le g hmax 0 hpos
  rw [Nat.mod_eq_of_lt (by omega)]
  omega

theorem inv_alloc_ok (g : Geometry) (hg : GeomOK g) (avail : Nat → Nat → Bool) (os : OS)
    (fuel : Nat) (st st' : State) (live : List Nat) (func page : Nat)
    (hinv : Inv g st live) (hos : OS_ok g st os)
    (h : duckhook_page_alloc g avail os fuel st func = some (.ok page, st')) :
    Inv g st' (page :: live) := by
  obtain ⟨pl, ⟨a, hres⟩, hpage, hst⟩ := page_alloc_ok g avail os fuel st st' func page h
  obtain ⟨hal, hin, hnew⟩ := hos a pl hres
  have hoff := slot_offset_le g hg.max_eq 0 hg.max_pos
  have hps := hg.ps_pos
  rw [fresh_page_eq g hg.ps_pos hg.max_eq hg.max_pos pl hin] at hpage
  have hlink := inv_link g st live (page_info.first_used g pl) hinv
    (by simp [page_info.first_used])
    (by simp [page_info.first_used, count_used_first _ hg.max_pos]) hal hin hnew
  subst hst
  have hget : (page_info.first_used g pl).used.getD 0 0 ≠ 0 := by
    have := hg.max_pos
    obtain ⟨m, hm⟩ : ∃ m, g.max_num_pages = m + 1 := ⟨g.max_num_pages - 1, by omega⟩
    simp [page_info.first_used, hm, List.replicate_succ]
  refine ⟨hlink.wf, hlink.nodup, ?_, ?_⟩
  · intro p hp
    rcases List.mem_cons.1 hp with rfl | hp
    · exact ⟨page_info.first_used g pl, List.mem_cons_self _ _, 0, hg.max_pos, hpage, hget⟩
    · exact hlink.live_slot p hp
  · rw [List.nodup_cons]
    refine ⟨?_, hinv.live_nodup⟩
    intro hmem
    obtain ⟨b, hb, i, hi, hp, -⟩ := hinv.live_slot page hmem
    obtain ⟨-, -, hbal, -, hbres⟩ := hinv.wf b hb
    have hoffi := slot_offset_le g hg.max_eq i hi
    have : pl = b.base :=
      aligned_unique g.allocation_unit pl b.base ((0 + 1) * g.page_size) ((i + 1) * g.page_size)
        hal hbal (by omega) (by omega) (by rw [← hpage, ← hp])
    exact hnew (this ▸ hbres)

theorem inv_alloc_error (g : Geometry) (avail : Nat → Nat → Bool) (os : OS)
    (fuel : Nat) (st st' : State) (live : List Nat) (func : Nat) (rv : Err)
    (hinv : Inv g st live) (hos : OS_ok g st os)
    (h : duckhook_page_alloc g avail os fuel st func = some (.error rv, st')) :
    Inv g st' live := by
  rcases page_alloc_error g avail os fuel st st' func rv h with rfl | ⟨pl, ⟨a, hres⟩, rfl | rfl⟩
  · exact hinv
  · exact inv_reserve g st live pl hinv
  · obtain ⟨hal, hin, hnew⟩ := hos a pl hres
    exact inv_link g st live (page_info.fresh g pl) hinv (by simp [page_info.fresh])
      (by simp [page_info.fresh, count_used_replicate_zero]) hal hin hnew

/-- Clearing slot `i` of a linked block keeps the invariant for the other live pages. -/
theorem inv_clear (g : Geometry) (pre post : List page_info) (B : page_info)
    (reserved live : List Nat) (i : Nat)
    (hinv : Inv g ⟨pre ++ B :: post, reserved⟩ live) (hused : B.used.getD i 0 ≠ 0) :
    Inv g ⟨pre ++ { B with num_used := B.num_used - 1, used := B.used.set i 0 } :: post,
      reserved⟩ (live.erase (B.base + (i + 1) * g.page_size)) := by
  have hB : B ∈ pre ++ B :: post := by simp
  refine ⟨?_, ?_, ?_, hinv.live_nodup.erase _⟩
  · intro b hb
    rcases List.mem_append.1 hb with hb | hb
    · exact hinv.wf b (List.mem_append_left _ hb)
    · rcases List.mem_cons.1 hb with rfl | hb
      · obtain ⟨h1, h2, h3, h4, h5⟩ := hinv.wf B hB
        have hc := count_used_set_zero B.used i hused
        refine ⟨by simpa using h1, ?_, h3, h4, h5⟩
        show B.num_used - 1 = (count_used (B.used.set i 0) : Int)
        rw [h2, ← hc]
        push_cast
        ring
      · exact hinv.wf b (List.mem_append_right _ (List.mem_cons_of_mem _ hb))
  · have := hinv.nodup
    simpa [List.map_append] using this
  · intro q hq
    rw [hinv.live_nodup.mem_erase_iff] at hq
    obtain ⟨hne, hq⟩ := hq
    obtain ⟨b, hb, j, hj, hqe, hget⟩ := hinv.live_slot q hq
    by_cases hbB : b = B
    · subst hbB
      have hji : i ≠ j := by
        intro h
        subst h
        exact hne hqe
      refine ⟨{ b with num_used := b.num_used - 1, used := b.used.set i 0 }, by simp, j, hj,
        hqe, ?_⟩
      show (b.used.set i 0).getD j 0 ≠ 0
      rw [getD_set_ne _ _ _ _ hji]
      exact hget
    · refine ⟨b, ?_, j, hj, hqe, hget⟩
      rcases List.mem_append.1 hb with hb | hb
      · exact List.mem_append_left _ hb
      · rcases List.mem_cons.1 hb with rfl | hb
        · exact absurd rfl hbB
        · exact List.mem_append_right _ (List.mem_cons_of_mem _ hb)

/-- Unlinking a block whose only slot in use is `i` keeps the invariant for the other
live pages, whether or not its reservation is given back. -/
theorem inv_unlink (g : Geometry) (pre post : List page_info) (B : page_info)
    (reserved reserved' live : List Nat) (i : Nat)
    (hinv : Inv g ⟨pre ++ B :: post, reserved⟩ live)
    (hused : B.used.getD i 0 ≠ 0) (hone : B.num_used - 1 = 0)
    (hres : ∀ a ∈ reserved, a ≠ B.base → a ∈ reserved') :
    Inv g ⟨pre ++ post, reserved'⟩ (live.erase (B.base + (i + 1) * g.page_size)) := by
  have hB : B ∈ pre ++ B :: post := by simp
  obtain ⟨hpre, hpost⟩ := bases_split pre post B hinv.nodup
  refine ⟨?_, ?_, ?_, hinv.live_nodup.erase _⟩
  · intro b hb
    have hb' : b ∈ pre ++ B :: post ∧ b.base ≠ B.base := by
      rcases List.mem_append.1 hb with hb | hb
      · exact ⟨List.mem_append_left _ hb, hpre b hb⟩
      · exact ⟨List.mem_append_right _ (List.mem_cons_of_mem _ hb), hpost b hb⟩
    obtain ⟨h1, h2, h3, h4, h5⟩ := hinv.wf b hb'.1
    exact ⟨h1, h2, h3, h4, hres _ h5 hb'.2⟩
  · have hsub : (pre ++ post).Sublist (pre ++ B :: post) :=
      List.Sublist.append_left (List.sublist_cons_self B post) pre
    exact hinv.nodup.sublist (hsub.map _)
  · intro q hq
    rw [hinv.live_nodup.mem_erase_iff] at hq
    obtain ⟨hne, hq⟩ := hq
    obtain ⟨b, hb, j, hj, hqe, hget⟩ := hinv.live_slot q hq
    by_cases hbB : b = B
    · subst hbB
      exfalso
      have hji : i ≠ j := by
        intro h
        subst h
        exact hne hqe
      obtain ⟨-, h2, -⟩ := hinv.wf b hB
      have hc := count_used_set_zero b.used i hused
      have hp := count_used_pos (b.used.set i 0) j (by rw [getD_set_ne _ _ _ _ hji]; exact hget)
      have h3 : (count_used b.used : Int) = 1 := by rw [← h2]; omega
      have h4 : count_used b.used = 1 := by exact_mod_cast h3
      omega
    · refine ⟨b, ?_, j, hj, hqe, hget⟩
      rcases List.mem_append.1 hb with hb | hb
      · exact List.mem_append_left _ hb
      · rcases List.mem_cons.1 hb with rfl | hb
        · exact absurd rfl hbB
        · exact List.mem_append_right _ hb

theorem inv_free (g : Geometry) (hg : GeomOK g) (os : OS) (st st' : State)
    (live : List Nat) (page : Nat) (rv : Int) (hinv : Inv g st live) (hlive : page ∈ live)
    (h : duckhook_page_free g os st page = some (rv, st')) :
    Inv g st' (if os.decommit page then live.erase page else live) := by
  obtain ⟨B, hB, i, hi, hpage, hused⟩ := hinv.live_slot page hlive
  obtain ⟨pre, post, hsplit⟩ := List.append_of_mem hB
  obtain ⟨reg, reserved⟩ := st
  simp only at hsplit
  subst hsplit
  obtain ⟨-, -, hal, hin, -⟩ := hinv.wf B hB
  obtain ⟨hpre, -⟩ := bases_split pre post B hinv.nodup
  subst hpage
  rw [page_free_eval g hg os pre post B reserved i hi hal hin hpre] at h
  by_cases hd : os.decommit (B.base + (i + 1) * g.page_size) = false
  · simp only [hd, if_true, Option.some.injEq, Prod.mk.injEq] at h
    rw [← h.2]
    simpa [hd] using hinv
  · simp only [Bool.not_eq_false] at hd
    simp only [hd, Bool.true_eq_false, if_false, if_true] at h ⊢
    by_cases hn : B.num_used - 1 ≠ 0
    · simp only [hn, if_true, ne_eq, not_false_eq_true, Option.some.injEq, Prod.mk.injEq] at h
      rw [← h.2]
      exact inv_clear g pre post B reserved live i hinv hused
    · simp only [hn, if_false] at h
      have hone : B.num_used - 1 = 0 := by simpa using hn
      by_cases hr : os.release B.base = true
      · simp only [hr, if_true, Option.some.injEq, Prod.mk.injEq] at h
        rw [← h.2]
        exact inv_unlink g pre post B reserved _ live i hinv hused hone
          (fun a ha hne => (List.mem_erase_of_ne hne).2 ha)
      · simp only [hr, Bool.false_eq_true, if_false, Option.some.injEq, Prod.mk.injEq] at h
        rw [← h.2]
        exact inv_unlink g pre post B reserved _ live i hinv hused hone (fun a ha _ => ha)

theorem reachable_inv (g : Geometry) (hg : GeomOK g) (st : State) (live : List Nat)
    (h : Reachable g st live) : Inv g st live := by
  induction h with
  | empty => exact inv_empty g
  | alloc_ok _ hos hcall ih => exact inv_alloc_ok g hg _ _ _ _ _ _ _ _ ih hos hcall
  | alloc_error _ hos hcall ih => exact inv_alloc_error g _ _ _ _ _ _ _ _ ih hos hcall
  | free _ hlive hcall ih => exact inv_free g hg _ _ _ _ _ _ ih hlive hcall

/-! ## The concrete process: lemmas -/

theorem demo_geometry_ok : GeomOK demo_geometry :=
  ⟨⟨16, by decide⟩, by decide, by decide, by decide, by decide⟩

theorem demo_os_ok (query : Nat → Option MEMORY_BASIC_INFORMATION) :
    OS_ok demo_geometry State.empty (demo_os query 0x410000) := by
  intro hint pl h
  simp only [demo_os, demo_reserve] at h
  split at h
  · simp only [Option.some.injEq] at h
    subst h
    decide
  · simp at h

theorem demo_os_commit_fails_ok : OS_ok demo_geometry State.empty demo_os_commit_fails := by
  intro hint pl h
  simp only [demo_os_commit_fails, demo_reserve] at h
  split at h
  · simp only [Option.some.injEq] at h
    subst h
    decide
  · simp at h

theorem demo_alloc1 :
    duckhook_page_alloc demo_geometry (fun _ _ => true) (demo_os demo_query 0x410000) 8
      State.empty 0x400000 = some (.ok 0x411000, demo_state1) := by decide

theorem demo_reachable1 : Reachable demo_geometry demo_state1 [0x411000] :=
  Reachable.alloc_ok Reachable.empty (demo_os_ok demo_query) demo_alloc1

/-! ## The claims -/

/-- C1, evaluated on the code: with a fitness test that accepts every page, the second
call of `duckhook_page_alloc` finds the free slot 1 of the only block (the locals are left
at `i = 1`, `page = 0x412000`), yet the cursor runs on to the sentinel, a second block is
reserved at `0x420000` and its page `0x421000` is returned; slot 1 of the first block stays
free. -/
theorem page_alloc_reserves_despite_free_slot :
    duckhook_page_alloc demo_geometry (fun _ _ => true) (demo_os demo_query 0x410000) 8
        State.empty 0x400000 = some (.ok 0x411000, demo_state1) ∧
    block_loop demo_geometry (fun _ _ => true) 0x400000 demo_state1.page_list ⟨0, 0⟩ =
        (none, ⟨1, 0x412000⟩) ∧
    duckhook_page_alloc demo_geometry (fun _ _ => true) (demo_os demo_query2 0x420000) 8
        demo_state1 0x400000 =
      some (.ok 0x421000,
        ⟨[⟨0x420000, 1, demo_used_first⟩, ⟨0x410000, 1, demo_used_first⟩],
          [0x420000, 0x410000]⟩) := by
  decide

/-- C2, refuted as stated: with `[0x400000, 0x90000000)` in use, the call for the target
`0x400000` succeeds with the page `0x90001000` of a block reserved behind that region, which
the window test of `2 ^ 31` bytes rejects. -/
theorem page_alloc_returns_unfit_page :
    duckhook_page_alloc demo_geometry demo_window (demo_os demo_query_far 0x90000000) 8
        State.empty 0x400000 =
      some (.ok 0x90001000, ⟨[⟨0x90000000, 1, demo_used_first⟩], [0x90000000]⟩) ∧
    demo_window 0x90001000 0x400000 = false := by
  decide

/-- C2, amended: a page returned by a successful `duckhook_page_alloc` passes the fitness
test, or it is the first page `base + page_size` of a block that the call reserved and
linked at the head of the registry; that page is used without asking the fitness test. -/
theorem page_alloc_fit_or_fresh (g : Geometry) (avail : Nat → Nat → Bool) (os : OS)
    (fuel : Nat) (st st' : State) (func page : Nat)
    (h : duckhook_page_alloc g avail os fuel st func = some (.ok page, st')) :
    avail page func = true ∨
      ∃ pl, (∃ a, os.reserve a = some pl) ∧ page = (pl + g.page_size) % g.W ∧
        st'.page_list.head? = some (page_info.first_used g pl) ∧
        st'.page_list.tail = st.page_list := by
  obtain ⟨pl, hres, hpage, hst⟩ := page_alloc_ok g avail os fuel st st' func page h
  exact Or.inr ⟨pl, hres, hpage, by rw [hst]; rfl, by rw [hst]; rfl⟩

/-- C2, amended, at the first allocation of the demo process. -/
theorem page_alloc_fit_or_fresh_witness :
    duckhook_page_alloc demo_geometry demo_window (demo_os demo_query 0x410000) 8
        State.empty 0x400000 = some (.ok 0x411000, demo_state1) ∧
    (demo_window 0x411000 0x400000 = true ∨
      ∃ pl, (∃ a, (demo_os demo_query 0x410000).reserve a = some pl) ∧
        0x411000 = (pl + demo_geometry.page_size) % demo_geometry.W ∧
        demo_state1.page_list.head? = some (page_info.first_used demo_geometry pl) ∧
        demo_state1.page_list.tail = State.empty.page_list) :=
  ⟨by decide,
    page_alloc_fit_or_fresh demo_geometry demo_window (demo_os demo_query 0x410000) 8
      State.empty demo_state1 0x400000 0x411000 (by decide)⟩

/-- C3: in every state reached from the empty registry by calls of `duckhook_page_alloc`
and `duckhook_page_free` (the latter on live pages, Windows calls succeeding or failing at
will), `num_used` of every linked block is the number of non-zero entries of its `used`
array, which has `max_num_pages` entries. -/
theorem num_used_eq_count_used (g : Geometry) (hg : GeomOK g) (st : State) (live : List Nat)
    (h : Reachable g st live) :
    ∀ b ∈ st.page_list,
      b.num_used = (count_used b.used : Int) ∧ b.used.length = g.max_num_pages := by
  intro b hb
  obtain ⟨h1, h2, -⟩ := (reachable_inv g hg st live h).wf b hb
  exact ⟨h2, h1⟩

/-- C3 at the state reached by the first allocation of the demo process. -/
theorem num_used_eq_count_used_witness :
    GeomOK demo_geometry ∧ Reachable demo_geometry demo_state1 [0x411000] ∧
      (1 : Int) = (count_used demo_used_first : Int) ∧
      demo_used_first.length = demo_geometry.max_num_pages :=
  ⟨demo_geometry_ok, demo_reachable1,
    num_used_eq_count_used demo_geometry demo_geometry_ok demo_state1 [0x411000]
      demo_reachable1 ⟨0x410000, 1, demo_used_first⟩ (by simp [demo_state1])⟩

/-- C4, evaluated on the code: when the commit of the page fails after `alloc_page_info`
has linked a new block, `duckhook_page_alloc` returns its error and the state reached
keeps that block linked with `num_used = 0` (and its reservation held). -/
theorem empty_block_stays_linked :
    Reachable demo_geometry ⟨[⟨0x410000, 0, List.replicate 15 0⟩], [0x410000]⟩ [] ∧
      (⟨0x410000, 0, List.replicate 15 0⟩ : page_info).num_used = 0 :=
  ⟨@Reachable.alloc_error demo_geometry State.empty _ [] (fun _ _ => true)
      demo_os_commit_fails 8 0x400000 .DUCKHOOK_ERROR_INTERNAL_ERROR Reachable.empty
      demo_os_commit_fails_ok (by decide), rfl⟩

/-- C5: for a geometry with positive page size and
`max_num_pages = allocation_unit / page_size - 1 ≥ 1`, and reservations that lie inside the
address space, the page returned by a successful `duckhook_page_alloc` is the page
`b.base + (i + 1) * page_size` of a slot `i < max_num_pages` of a linked block `b`; it lies
behind the control page and inside the allocation unit of `b`. -/
theorem page_alloc_inside_block (g : Geometry) (hps : 0 < g.page_size)
    (hmax : g.max_num_pages = g.allocation_unit / g.page_size - 1)
    (hpos : 1 ≤ g.max_num_pages) (avail : Nat → Nat → Bool) (os : OS) (fuel : Nat)
    (st st' : State) (func page : Nat)
    (hos : ∀ a pl, os.reserve a = some pl → pl + g.allocation_unit ≤ g.W)
    (h : duckhook_page_alloc g avail os fuel st func = some (.ok page, st')) :
    ∃ b ∈ st'.page_list, ∃ i, i < g.max_num_pages ∧ page = b.base + (i + 1) * g.page_size ∧
      b.base + g.page_size ≤ page ∧ page + g.page_size ≤ b.base + g.allocation_unit := by
  obtain ⟨pl, ⟨a, hres⟩, hpage, hst⟩ := page_alloc_ok g avail os fuel st st' func page h
  have hin := hos a pl hres
  have hoff := slot_offset_le g hmax 0 hpos
  rw [fresh_page_eq g hps hmax hpos pl hin] at hpage
  refine ⟨page_info.first_used g pl, by rw [hst]; exact List.mem_cons_self _ _, 0, hpos, hpage,
    ?_, ?_⟩
  · show pl + g.page_size ≤ page
    omega
  · show page + g.page_size ≤ pl + g.allocation_unit
    omega

/-- C5 at the first allocation of the demo process. -/
theorem page_alloc_inside_block_witness :
    ∃ b ∈ demo_state1.page_list, ∃ i, i < demo_geometry.max_num_pages ∧
      0x411000 = b.base + (i + 1) * demo_geometry.page_size ∧
      b.base + demo_geometry.page_size ≤ 0x411000 ∧
      0x411000 + demo_geometry.page_size ≤ b.base + demo_geometry.allocation_unit :=
  page_alloc_inside_block demo_geometry (by decide) (by decide) (by decide) (fun _ _ => true)
    (demo_os demo_query 0x410000) 8 State.empty demo_state1 0x400000 0x411000
    (by
      intro a pl h
      simp only [demo_os, demo_reserve] at h
      split at h
      · simp only [Option.some.injEq] at h
        subst h
        decide
      · simp at h)
    (by decide)

/-- C6: in every state reached from the empty registry (reservations being aligned, inside
the address space and disjoint from those still held), the live pages are pairwise
different, and a page returned by a further successful `duckhook_page_alloc` is none of
them. -/
theorem live_pages_distinct (g : Geometry) (hg : GeomOK g) (st : State) (live : List Nat)
    (h : Reachable g st live) :
    live.Nodup ∧
      ∀ (avail : Nat → Nat → Bool) (os : OS) (fuel func page : Nat) (st' : State),
        OS_ok g st os →
        duckhook_page_alloc g avail os fuel st func = some (.ok page, st') → page ∉ live := by
  refine ⟨(reachable_inv g hg st live h).live_nodup, ?_⟩
  intro avail os fuel func page st' hos hcall
  have := (reachable_inv g hg st' (page :: live) (Reachable.alloc_ok h hos hcall)).live_nodup
  exact (List.nodup_cons.1 this).1

/-- C6 at the state reached by the first allocation of the demo process. -/
theorem live_pages_distinct_witness :
    GeomOK demo_geometry ∧ Reachable demo_geometry demo_state1 [0x411000] ∧
      ([0x411000] : List Nat).Nodup :=
  ⟨demo_geometry_ok, demo_reachable1,
    (live_pages_distinct demo_geometry demo_geometry_ok demo_state1 [0x411000]
      demo_reachable1).1⟩

/-- C7: let `B` be a linked block with `num_used ≥ 1` and `p` the page of its slot `i`.
`duckhook_page_free` returns 0 exactly when the decommit succeeds and either
`num_used > 1`, in which case `B` stays in place with slot `i` cleared, `num_used`
decremented and its other slots untouched, or `num_used = 1`, in which case the release
succeeds, `B` is unlinked and its reservation is given back; the other blocks and their
order are the same. On a full block of 15 pages the block is still linked after 14 frees
and gone, with its reservation, after the 15th. -/
theorem page_free_success (g : Geometry) (hg : GeomOK g) (os : OS)
    (pre post : List page_info) (B : page_info) (reserved : List Nat) (i : Nat)
    (hi : i < g.max_num_pages) (hal : g.allocation_unit ∣ B.base)
    (hin : B.base + g.allocation_unit ≤ g.W) (hpre : ∀ x ∈ pre, x.base ≠ B.base)
    (hn : 1 ≤ B.num_used) (st' : State) :
    (duckhook_page_free g os ⟨pre ++ B :: post, reserved⟩ (B.base + (i + 1) * g.page_size) =
        some (0, st') ↔
      os.decommit (B.base + (i + 1) * g.page_size) = true ∧
        ((1 < B.num_used ∧
            st' = ⟨pre ++ { B with num_used := B.num_used - 1, used := B.used.set i 0 } :: post,
              reserved⟩) ∨
          (B.num_used = 1 ∧ os.release B.base = true ∧
            st' = ⟨pre ++ post, reserved.erase B.base⟩))) ∧
    free_pages demo_geometry (demo_os demo_query2 0x420000) demo_full
        (demo_full_pages.take 14) =
      some ⟨[⟨0x410000, 1, List.replicate 14 0 ++ [1]⟩], [0x410000]⟩ ∧
    free_pages demo_geometry (demo_os demo_query2 0x420000) demo_full demo_full_pages =
      some ⟨[], []⟩ := by
  refine ⟨?_, by decide, by decide⟩
  rw [page_free_eval g hg os pre post B reserved i hi hal hin hpre]
  by_cases hd : os.decommit (B.base + (i + 1) * g.page_size) = false
  · simp [hd]
  · simp only [Bool.not_eq_false] at hd
    by_cases h1 : B.num_used = 1
    · by_cases hr : os.release B.base = true
      · simp only [hd, h1, hr, Bool.true_eq_false, if_false, if_true, sub_self, ne_eq,
          not_true_eq_false, Option.some.injEq, Prod.mk.injEq, true_and, lt_self_iff_false,
          false_and, false_or]
        exact eq_comm
      · simp [hd, h1, hr]
    · have h2 : 1 < B.num_used := by omega
      have h3 : B.num_used - 1 ≠ 0 := by omega
      simp only [hd, h1, h2, h3, Bool.true_eq_false, if_false, if_true, ne_eq,
        not_false_eq_true, Option.some.injEq, Prod.mk.injEq, true_and, false_and, or_false]
      exact eq_comm

/-- C7 at the only live page of the demo process after its first allocation. -/
theorem page_free_success_witness :
    (duckhook_page_free demo_geometry (demo_os demo_query2 0x420000) demo_state1 0x411000 =
        some (0, State.empty) ↔
      (demo_os demo_query2 0x420000).decommit 0x411000 = true ∧
        (((1 : Int) < 1 ∧ State.empty = ⟨[⟨0x410000, 0, demo_used_first.set 0 0⟩], [0x410000]⟩) ∨
          ((1 : Int) = 1 ∧ (demo_os demo_query2 0x420000).release 0x410000 = true ∧
            State.empty = ⟨[], [0x410000].erase 0x410000⟩))) :=
  (page_free_success demo_geometry demo_geometry_ok (demo_os demo_query2 0x420000) [] []
    ⟨0x410000, 1, demo_used_first⟩ [0x410000] 0 (by decide) (by decide) (by decide)
    (fun x hx => absurd hx (List.not_mem_nil x)) (by decide) State.empty).1

/-- C8, refuted as stated: on the empty registry, a call of `duckhook_page_free` on the
page `0x411000` whose decommit fails does not return -1: the block `0x410000` computed from
the page is no control structure of the registry, and the source reads `pl->num_used` for
its log line before it tests the result of the decommit. -/
theorem page_free_stray_page :
    demo_os_decommit_fails.decommit 0x411000 = false ∧
    page_owner demo_geometry 0x411000 = 0x410000 ∧
    lookup 0x410000 State.empty.page_list = none ∧
    duckhook_page_free demo_geometry demo_os_decommit_fails State.empty 0x411000 = none := by
  decide

/-- C8, amended: for every registry state and every page whose owning block, as computed by
`duckhook_page_free`, is linked in the registry (every live page is such a page), if the
decommit of the page fails then `duckhook_page_free` returns -1 and the state is the one
before the call: no slot is cleared, no `num_used` changes, no block is unlinked and no
reservation is given back. For no page at all does a call with a failing decommit return
anything else. -/
theorem page_free_decommit_failure (g : Geometry) (os : OS) (st : State) (page : Nat)
    (h : os.decommit page = false) :
    (∀ b, lookup (page_owner g page) st.page_list = some b →
      duckhook_page_free g os st page = some (-1, st)) ∧
    (∀ rv st1, duckhook_page_free g os st page = some (rv, st1) → rv = -1 ∧ st1 = st) := by
  constructor
  · intro b hb
    simp [duckhook_page_free, hb, h]
  · intro rv st1 hcall
    unfold duckhook_page_free at hcall
    simp only [h] at hcall
    cases hl : lookup (page_owner g page) st.page_list with
    | none => simp [hl] at hcall
    | some b =>
      simp only [hl, Bool.not_false, if_true, Option.some.injEq, Prod.mk.injEq] at hcall
      exact ⟨hcall.1.symm, hcall.2.symm⟩

/-- C8, amended, on the live page of the demo process with a failing decommit. -/
theorem page_free_decommit_failure_witness :
    demo_os_decommit_fails.decommit 0x411000 = false ∧
      duckhook_page_free demo_geometry demo_os_decommit_fails demo_state1 0x411000 =
        some (-1, demo_state1) :=
  ⟨rfl, (page_free_decommit_failure demo_geometry demo_os_decommit_fails demo_state1 0x411000
    rfl).1 ⟨0x410000, 1, demo_used_first⟩ (by decide)⟩

/-- C9, evaluated on the code: from the empty registry, a call of `duckhook_page_alloc` in
which the reservation and the commit of the control page succeed and the commit of the page
fails returns `DUCKHOOK_ERROR_INTERNAL_ERROR` and leaves a state that is not the empty
registry: the new block is linked and its reservation is held. -/
theorem page_alloc_error_keeps_block :
    duckhook_page_alloc demo_geometry (fun _ _ => true) demo_os_commit_fails 8 State.empty
        0x400000 =
      some (.error .DUCKHOOK_ERROR_INTERNAL_ERROR,
        ⟨[⟨0x410000, 0, List.replicate 15 0⟩], [0x410000]⟩) ∧
    (⟨[⟨0x410000, 0, List.replicate 15 0⟩], [0x410000]⟩ : State) ≠ State.empty := by
  decide

/-- C10, refuted as stated: when the decommit succeeds and the release fails on the last
page of a block, `duckhook_page_free` returns -1 with the block unlinked, its reservation
still held and the bookkeeping changed. -/
theorem page_free_unlinked_not_released :
    duckhook_page_free demo_geometry demo_os_release_fails demo_state1 0x411000 =
      some (-1, ⟨[], [0x410000]⟩) ∧
    demo_state1 ≠ ⟨[], [0x410000]⟩ := by
  decide

/-- C10, amended: for the page `p` of slot `i` of a linked block `B`, `duckhook_page_free`
returns in every case. If the decommit fails it returns -1 and the state is unchanged. If
the decommit succeeds and `num_used` does not drop to 0 it returns 0, `B` stays linked with
the slot cleared and no reservation is touched. If `num_used` drops to 0, `B` is unlinked;
its reservation is given back and 0 is returned when the release succeeds, and -1 is
returned with the reservation still held when the release fails. So a reservation is given
back only for a block that has been unlinked. -/
theorem page_free_outcomes (g : Geometry) (hg : GeomOK g) (os : OS)
    (pre post : List page_info) (B : page_info) (reserved : List Nat) (i : Nat)
    (hi : i < g.max_num_pages) (hal : g.allocation_unit ∣ B.base)
    (hin : B.base + g.allocation_unit ≤ g.W) (hpre : ∀ x ∈ pre, x.base ≠ B.base) :
    ∃ rv st',
      duckhook_page_free g os ⟨pre ++ B :: post, reserved⟩ (B.base + (i + 1) * g.page_size) =
        some (rv, st') ∧
      (os.decommit (B.base + (i + 1) * g.page_size) = false →
        rv = -1 ∧ st' = ⟨pre ++ B :: post, reserved⟩) ∧
      (os.decommit (B.base + (i + 1) * g.page_size) = true → B.num_used ≠ 1 →
        rv = 0 ∧
          st' = ⟨pre ++ { B with num_used := B.num_used - 1, used := B.used.set i 0 } :: post,
            reserved⟩) ∧
      (os.decommit (B.base + (i + 1) * g.page_size) = true → B.num_used = 1 →
        st'.page_list = pre ++ post ∧
          (os.release B.base = true → rv = 0 ∧ st'.reserved = reserved.erase B.base) ∧
          (os.release B.base = false → rv = -1 ∧ st'.reserved = reserved)) := by
  rw [page_free_eval g hg os pre post B reserved i hi hal hin hpre]
  by_cases hd : os.decommit (B.base + (i + 1) * g.page_size) = false
  · exact ⟨-1, ⟨pre ++ B :: post, reserved⟩, by simp [hd], by simp, by simp [hd],
      by simp [hd]⟩
  · simp only [Bool.not_eq_false] at hd
    by_cases h1 : B.num_used = 1
    · by_cases hr : os.release B.base = true
      · exact ⟨0, ⟨pre ++ post, reserved.erase B.base⟩, by simp [hd, h1, hr], by simp [hd],
          by simp [h1], by simp [hr]⟩
      · exact ⟨-1, ⟨pre ++ post, reserved⟩, by simp [hd, h1, hr], by simp [hd],
          by simp [h1], by simp [hr]⟩
    · have h3 : B.num_used - 1 ≠ 0 := by omega
      exact ⟨0, ⟨pre ++ { B with num_used := B.num_used - 1, used := B.used.set i 0 } :: post,
        reserved⟩, by simp [hd, h3], by simp [hd], by simp, by simp [h1]⟩

/-- C10, amended, in the demo process with a failing release. -/
theorem page_free_outcomes_witness :
    ∃ rv st',
      duckhook_page_free demo_geometry demo_os_release_fails demo_state1 0x411000 =
        some (rv, st') ∧
      (demo_os_release_fails.decommit 0x411000 = false → rv = -1 ∧ st' = demo_state1) ∧
      (demo_os_release_fails.decommit 0x411000 = true → (1 : Int) ≠ 1 →
        rv = 0 ∧ st' = ⟨[⟨0x410000, 1 - 1, demo_used_first.set 0 0⟩], [0x410000]⟩) ∧
      (demo_os_release_fails.decommit 0x411000 = true → (1 : Int) = 1 →
        st'.page_list = [] ∧
          (demo_os_release_fails.release 0x410000 = true →
            rv = 0 ∧ st'.reserved = [0x410000].erase 0x410000) ∧
          (demo_os_release_fails.release 0x410000 = false →
            rv = -1 ∧ st'.reserved = [0x410000])) :=
  page_free_outcomes demo_geometry demo_geometry_ok demo_os_release_fails [] []
    ⟨0x410000, 1, demo_used_first⟩ [0x410000] 0 (by decide) (by decide) (by decide)
    (fun x hx => absurd hx (List.not_mem_nil x))

/-! ## Protection: lemmas -/

theorem round_down_eq (x u : Nat) : ROUND_DOWN x u = u * (x / u) := by
  unfold ROUND_DOWN
  have := Nat.div_add_mod x u
  omega

theorem unprotect_begin_addr (g : Geometry) (ok : Bool) (prot : Nat → Nat)
    (mstate : mem_state_t) (start len : Nat) :
    (duckhook_unprotect_begin g ok prot mstate start len).2.1.addr =
      ROUND_DOWN start g.page_size % g.W := by
  cases ok <;> simp [duckhook_unprotect_begin, VirtualProtect]

theorem unprotect_begin_size (g : Geometry) (ok : Bool) (prot : Nat → Nat)
    (mstate : mem_state_t) (start len : Nat) :
    (duckhook_unprotect_begin g ok prot mstate start len).2.1.size =
      ROUND_UP (sub_w g.W ((len + start) % g.W) (ROUND_DOWN start g.page_size % g.W))
        g.page_size % g.W := by
  cases ok <;> simp [duckhook_unprotect_begin, VirtualProtect]

/-- The inner loop ends by `break` at the first free slot whose page passes the fitness
test, with `i` that slot and `page` its page. -/
theorem slot_loop_finds (g : Geometry) (avail : Nat → Nat → Bool) (func : Nat)
    (pl : page_info) (i : Nat) (hfree : pl.used.getD i 0 = 0)
    (hacc : avail ((pl.base + (i + 1) * g.page_size) % g.W) func = true)
    (hrej : ∀ j, j < i → pl.used.getD j 0 = 0 →
      avail ((pl.base + (j + 1) * g.page_size) % g.W) func = false) :
    ∀ n (c : Locals), c.i ≤ i → i < c.i + n →
      slot_loop g avail func pl n c = ⟨i, (pl.base + (i + 1) * g.page_size) % g.W⟩ := by
  intro n
  induction n with
  | zero => intro c h1 h2; omega
  | succ n ih =>
    intro c h1 h2
    rw [slot_loop]
    by_cases hk : c.i = i
    · simp only [hk, hfree, if_true, hacc]
    · have hlt : c.i < i := by omega
      by_cases hu : pl.used.getD c.i 0 = 0
      · simp only [hu, if_true, hrej c.i hlt hu, Bool.false_eq_true, if_false]
        exact ih _ (by show c.i + 1 ≤ i; omega) (by show i < c.i + 1 + n; omega)
      · simp only [hu, if_false]
        exact ih _ (by show c.i + 1 ≤ i; omega) (by show i < c.i + 1 + n; omega)

/-- C11: for an allocation unit that is a power of two below the word size, a positive page
size, a base `b` that is a multiple of the allocation unit with `b + allocation_unit` inside
the address space and a slot `i < allocation_unit / page_size - 1`, the block and slot that
`duckhook_page_free` computes from the page `p = b + (i + 1) * page_size` are `b` and `i`.
That page is the candidate the slot loop of `duckhook_page_alloc` leaves in `page`, with
`i` in `i`, when it stops at slot `i` of the block at `b`; and `duckhook_page_free` called
on it works on the block at `b` and clears `used[i]` there. -/
theorem page_addressing_inverse (g : Geometry) (k : Nat) (hpow : g.allocation_unit = 2 ^ k)
    (hlt : g.allocation_unit < g.W) (hps : 0 < g.page_size) (b i : Nat)
    (hal : g.allocation_unit ∣ b) (hin : b + g.allocation_unit ≤ g.W)
    (hi : i < g.allocation_unit / g.page_size - 1) :
    page_owner g (b + (i + 1) * g.page_size) = b ∧
    page_index g (b + (i + 1) * g.page_size) b = i ∧
    (∀ (avail : Nat → Nat → Bool) (func : Nat) (B : page_info) (c : Locals),
      B.base = b → i < g.max_num_pages → B.used.getD i 0 = 0 →
      avail (b + (i + 1) * g.page_size) func = true →
      (∀ j, j < i → B.used.getD j 0 = 0 → avail (b + (j + 1) * g.page_size) func = false) →
      slot_loop g avail func B g.max_num_pages { c with i := 0 } =
        ⟨i, b + (i + 1) * g.page_size⟩) ∧
    (∀ (os : OS) (pre post : List page_info) (B : page_info) (reserved : List Nat),
      B.base = b → (∀ x ∈ pre, x.base ≠ b) →
      duckhook_page_free g os ⟨pre ++ B :: post, reserved⟩ (b + (i + 1) * g.page_size) =
        if os.decommit (b + (i + 1) * g.page_size) = false then
          some (-1, ⟨pre ++ B :: post, reserved⟩)
        else if B.num_used - 1 ≠ 0 then
          some (0,
            ⟨pre ++ { B with num_used := B.num_used - 1, used := B.used.set i 0 } :: post,
              reserved⟩)
        else if os.release b then some (0, ⟨pre ++ post, reserved.erase b⟩)
        else some (-1, ⟨pre ++ post, reserved⟩)) := by
  have hg : GeomOK { g with max_num_pages := g.allocation_unit / g.page_size - 1 } :=
    ⟨⟨k, hpow⟩, hlt, hps, rfl, by show 1 ≤ g.allocation_unit / g.page_size - 1; omega⟩
  have hoff : (i + 1) * g.page_size + g.page_size ≤ g.allocation_unit :=
    slot_offset_le _ hg.max_eq i hi
  have hlt2 : (i + 1) * g.page_size < g.allocation_unit := by omega
  have hown : page_owner g (b + (i + 1) * g.page_size) = b :=
    page_block _ hg b ((i + 1) * g.page_size) hal hin hlt2
  have hidx : page_index g (b + (i + 1) * g.page_size) b = i := page_slot _ hg b i hin hi
  have hmod : ∀ j, j ≤ i →
      (b + (j + 1) * g.page_size) % g.W = b + (j + 1) * g.page_size := by
    intro j hj
    have : (j + 1) * g.page_size ≤ (i + 1) * g.page_size :=
      Nat.mul_le_mul_right _ (by omega)
    exact Nat.mod_eq_of_lt (by omega)
  refine ⟨hown, hidx, ?_, ?_⟩
  · intro avail func B c hB him hfree hacc hrej
    subst hB
    have := slot_loop_finds g avail func B i hfree (by rw [hmod i (le_refl _)]; exact hacc)
      (fun j hj hf => by rw [hmod j (le_of_lt hj)]; exact hrej j hj hf)
      g.max_num_pages { c with i := 0 } (Nat.zero_le _) (by show i < 0 + g.max_num_pages; omega)
    rw [this, hmod i (le_refl _)]
  · intro os pre post B reserved hB hpre
    subst hB
    exact page_free_at g os pre post B reserved _ i hown hidx hpre

/-- C11 at slot 14 of the block at `0x410000` of the demo process. -/
theorem page_addressing_inverse_witness :
    page_owner demo_geometry (0x410000 + (14 + 1) * demo_geometry.page_size) = 0x410000 ∧
    page_index demo_geometry (0x410000 + (14 + 1) * demo_geometry.page_size) 0x410000 = 14 :=
  ⟨(page_addressing_inverse demo_geometry 16 (by decide) (by decide) (by decide) 0x410000 14
      (by decide) (by decide) (by decide)).1,
    (page_addressing_inverse demo_geometry 16 (by decide) (by decide) (by decide) 0x410000 14
      (by decide) (by decide) (by decide)).2.1⟩

/-- C14: in a registry none of whose free slots passes the fitness test (the empty registry
is one), when the scan from the target yields a hint, the reservation at that hint succeeds
at `pl` and both commits succeed, `duckhook_page_alloc` returns `pl + page_size`, holds
one more reservation, and links at the head of the registry, in front of the unchanged
former blocks, a block with `used[0] = 1`, every other slot 0 and `num_used = 1`. -/
theorem page_alloc_new_block (g : Geometry) (avail : Nat → Nat → Bool) (os : OS)
    (fuel : Nat) (st : State) (func hint pl : Nat)
    (_hnone : ∀ b ∈ st.page_list, ∀ i, i < g.max_num_pages → b.used.getD i 0 = 0 →
      avail ((b.base + (i + 1) * g.page_size) % g.W) func = false)
    (hhint : choose_hint g os fuel func = some (.ok hint))
    (hres : os.reserve hint = some pl) (hctl : os.commit pl = true)
    (hin : pl + g.page_size < g.W) (hpage : os.commit (pl + g.page_size) = true) :
    duckhook_page_alloc g avail os fuel st func =
      some (.ok (pl + g.page_size),
        ⟨⟨pl, 1, (List.replicate g.max_num_pages 0).set 0 1⟩ :: st.page_list,
          pl :: st.reserved⟩) := by
  have hinfo : alloc_page_info g os fuel st func =
      some (.ok pl, ⟨page_info.fresh g pl :: st.page_list, pl :: st.reserved⟩) := by
    simp [alloc_page_info, hhint, hres, hctl]
  rw [page_alloc_eval, hinfo]
  simp [Nat.mod_eq_of_lt hin, hpage, mark_used, page_info.fresh]

/-- C14 at the first allocation of the demo process. -/
theorem page_alloc_new_block_witness :
    duckhook_page_alloc demo_geometry demo_window (demo_os demo_query 0x410000) 8
        State.empty 0x400000 =
      some (.ok (0x410000 + demo_geometry.page_size),
        ⟨⟨0x410000, 1, (List.replicate demo_geometry.max_num_pages 0).set 0 1⟩ ::
            State.empty.page_list, 0x410000 :: State.empty.reserved⟩) :=
  page_alloc_new_block demo_geometry demo_window (demo_os demo_query 0x410000) 8
    State.empty 0x400000 0x410000 0x410000
    (fun b hb => absurd hb (List.not_mem_nil b)) (by decide) (by decide) (by decide)
    (by decide) (by decide)

/-- C15, refuted as stated: the reservation at `0x410000` succeeds, the commit of the
control page fails and Windows refuses the release; `alloc_page_info` returns
`DUCKHOOK_ERROR_INTERNAL_ERROR` with the reservation it made still held. -/
theorem alloc_page_info_release_refused :
    demo_os_control_release_fail.commit 0x410000 = false ∧
    demo_os_control_release_fail.release 0x410000 = false ∧
    alloc_page_info demo_geometry demo_os_control_release_fail 8 State.empty 0x400000 =
      some (.error .DUCKHOOK_ERROR_INTERNAL_ERROR, ⟨[], [0x410000]⟩) := by
  decide

/-- C15, amended: when `alloc_page_info` returns an error no block has been linked. Nothing
is reserved when the reservation fails. When the commit of the control page fails the
reservation just made is handed to `VirtualFree(MEM_RELEASE)`, whose result is not looked
at: the reservations held are those held before, unless that release is refused, in which
case the new reservation stays held; with every release honoured the state is the one
before the call. When it returns a block, that block has been linked after the commit of
its control page succeeded. -/
theorem alloc_page_info_all_or_nothing (g : Geometry) (os : OS) (fuel : Nat) (st st1 : State)
    (hint : Nat) (r : Except Err Nat)
    (h : alloc_page_info g os fuel st hint = some (r, st1)) :
    (∀ e, r = .error e →
      st1.page_list = st.page_list ∧
      ((∀ pl, os.release pl = true) → st1 = st) ∧
      (st1.reserved = st.reserved ∨
        ∃ a pl, os.reserve a = some pl ∧ os.commit pl = false ∧ os.release pl = false ∧
          st1.reserved = pl :: st.reserved)) ∧
    (∀ pl, r = .ok pl →
      os.commit pl = true ∧ (∃ a, os.reserve a = some pl) ∧
        st1 = ⟨page_info.fresh g pl :: st.page_list, pl :: st.reserved⟩) := by
  constructor
  · intro e he
    subst he
    rcases alloc_page_info_error g os fuel st st1 hint e h with h1 | ⟨a, pl, h1, h2, h3, h4⟩
    · subst h1
      exact ⟨rfl, fun _ => rfl, Or.inl rfl⟩
    · subst h4
      refine ⟨rfl, fun hrel => ?_, Or.inr ⟨a, pl, h1, h2, h3, rfl⟩⟩
      rw [hrel pl] at h3
      exact absurd h3 (by decide)
  · intro pl hpl
    subst hpl
    obtain ⟨h1, h2, h3⟩ := alloc_page_info_ok g os fuel st st1 hint pl h
    exact ⟨h2, h1, h3⟩

/-- C15, amended, in the demo process when the commit of the control page fails. -/
theorem alloc_page_info_all_or_nothing_witness :
    (∀ e, (Except.error .DUCKHOOK_ERROR_INTERNAL_ERROR : Except Err Nat) = .error e →
      State.empty.page_list = State.empty.page_list ∧
      ((∀ pl, demo_os_control_fails.release pl = true) → State.empty = State.empty) ∧
      (State.empty.reserved = State.empty.reserved ∨
        ∃ a pl, demo_os_control_fails.reserve a = some pl ∧
          demo_os_control_fails.commit pl = false ∧ demo_os_control_fails.release pl = false ∧
          State.empty.reserved = pl :: State.empty.reserved)) ∧
    (∀ pl, (Except.error .DUCKHOOK_ERROR_INTERNAL_ERROR : Except Err Nat) = .ok pl →
      demo_os_control_fails.commit pl = true ∧
        (∃ a, demo_os_control_fails.reserve a = some pl) ∧
        State.empty =
          ⟨page_info.fresh demo_geometry pl :: State.empty.page_list,
            pl :: State.empty.reserved⟩) :=
  alloc_page_info_all_or_nothing demo_geometry demo_os_control_fails 8 State.empty
    State.empty 0x400000 (.error .DUCKHOOK_ERROR_INTERNAL_ERROR) (by decide)

theorem W_ge (g : Geometry) : 2 ^ 32 ≤ g.W := by
  unfold Geometry.W Geometry.bits
  split <;> norm_num

theorem sub_w_one_int (W q : Nat) (hW : 2 ≤ W) (hq : q < W) :
    ((sub_w W q 1 : Nat) : Int) = ((q : Int) - 1) % (W : Int) := by
  by_cases h0 : q = 0
  · subst h0
    have h1 : sub_w W 0 1 = W - 1 := by
      unfold sub_w
      rw [Nat.zero_mod, Nat.mod_eq_of_lt (by omega : 1 < W), Nat.zero_add,
        Nat.mod_eq_of_lt (by omega)]
    rw [h1]
    have h2 : ((0 : Nat) : Int) - 1 = -1 := by norm_num
    rw [h2]
    have h3 : (-1 : Int) % (W : Int) = (W : Int) - 1 := by
      rw [← Int.add_emod_self, Int.emod_eq_of_lt (by omega) (by omega)]
      ring
    rw [h3]
    omega
  · rw [sub_w_eq W q 1 hq (by omega)]
    have h2 : ((q : Int) - 1) % (W : Int) = (q : Int) - 1 :=
      Int.emod_eq_of_lt (by omega) (by omega)
    rw [h2]
    omega

/-- C16: for `DWORD` values reported by `GetSystemInfo` with a positive page size,
`duckhook_page_size` returns the page size, stores page size and allocation granularity,
and sets `max_num_pages` to `allocation_granularity / page_size - 1` in `size_t`
arithmetic, which is the natural number `allocation_granularity / page_size - 1` whenever
the page size does not exceed the granularity; a second call with the same values gives
the same result; 4096 and 65536 give 15. -/
theorem page_size_geometry (g : Geometry) (si : SYSTEM_INFO) (hps : 0 < si.dwPageSize)
    (h1 : si.dwPageSize < 2 ^ 32) (h2 : si.dwAllocationGranularity < 2 ^ 32) :
    (duckhook_page_size g si).1 = si.dwPageSize ∧
    (duckhook_page_size g si).2.page_size = si.dwPageSize ∧
    (duckhook_page_size g si).2.allocation_unit = si.dwAllocationGranularity ∧
    (((duckhook_page_size g si).2.max_num_pages : Nat) : Int) =
      (((si.dwAllocationGranularity / si.dwPageSize : Nat) : Int) - 1) % (g.W : Int) ∧
    (si.dwPageSize ≤ si.dwAllocationGranularity →
      (duckhook_page_size g si).2.max_num_pages =
        si.dwAllocationGranularity / si.dwPageSize - 1) ∧
    duckhook_page_size (duckhook_page_size g si).2 si = duckhook_page_size g si ∧
    (duckhook_page_size g ⟨4096, 65536⟩).2.max_num_pages = 15 := by
  have hW := W_ge g
  have e1 : si.dwPageSize % g.W = si.dwPageSize := Nat.mod_eq_of_lt (by omega)
  have e2 : si.dwAllocationGranularity % g.W = si.dwAllocationGranularity :=
    Nat.mod_eq_of_lt (by omega)
  have hq : si.dwAllocationGranularity / si.dwPageSize < g.W :=
    lt_of_le_of_lt (Nat.div_le_self _ _) (by omega)
  refine ⟨e1, e1, e2, ?_, ?_, ?_, ?_⟩
  · show ((sub_w g.W (si.dwAllocationGranularity % g.W / (si.dwPageSize % g.W)) 1 : Nat) : Int)
      = _
    rw [e1, e2]
    exact sub_w_one_int g.W _ (by omega) hq
  · intro hle
    show sub_w g.W (si.dwAllocationGranularity % g.W / (si.dwPageSize % g.W)) 1 = _
    rw [e1, e2]
    have : 1 ≤ si.dwAllocationGranularity / si.dwPageSize :=
      (Nat.one_le_div_iff hps).2 hle
    exact sub_w_eq g.W _ 1 hq this
  · rfl
  · have e3 : (4096 : Nat) % g.W = 4096 := Nat.mod_eq_of_lt (by omega)
    have e4 : (65536 : Nat) % g.W = 65536 := Nat.mod_eq_of_lt (by omega)
    show sub_w g.W (65536 % g.W / (4096 % g.W)) 1 = 15
    rw [e3, e4]
    rw [sub_w_eq g.W _ 1 (by norm_num; omega) (by norm_num)]

/-- C16 at the values reported by 64-bit Windows. -/
theorem page_size_geometry_witness :
    (duckhook_page_size demo_geometry ⟨4096, 65536⟩).1 = 4096 ∧
    (duckhook_page_size demo_geometry ⟨4096, 65536⟩).2 = demo_geometry :=
  ⟨(page_size_geometry demo_geometry ⟨4096, 65536⟩ (by decide) (by decide) (by decide)).1,
    by decide⟩

/-- C19: the cursor of the block search of `duckhook_page_alloc` is the sentinel when the
search ends, whatever the registry, the target and the fitness test; so a successful call
returns the page `base + page_size` of a block reserved by that call, the registry is the
former one with that block, whose slot 0 alone is in use, put in front, and the blocks
that were there keep their `used` and `num_used`. -/
theorem page_alloc_always_reserves (g : Geometry) (avail : Nat → Nat → Bool) (os : OS)
    (fuel : Nat) (st st1 : State) (func page : Nat)
    (h : duckhook_page_alloc g avail os fuel st func = some (.ok page, st1)) :
    (block_loop g avail func st.page_list ⟨0, 0⟩).1 = none ∧
      ∃ pl, (∃ a, os.reserve a = some pl) ∧ page = (pl + g.page_size) % g.W ∧
        (pl + g.page_size < g.W → page = pl + g.page_size) ∧
        st1.page_list = page_info.first_used g pl :: st.page_list ∧
        st1.page_list.length = st.page_list.length + 1 ∧
        st1.reserved = pl :: st.reserved := by
  refine ⟨block_loop_cursor g avail func st.page_list ⟨0, 0⟩, ?_⟩
  obtain ⟨pl, hres, hpage, hst⟩ := page_alloc_ok g avail os fuel st st1 func page h
  subst hst
  exact ⟨pl, hres, hpage, fun hlt => by rw [hpage, Nat.mod_eq_of_lt hlt], rfl, rfl, rfl⟩

/-- C19 at the second allocation of the demo process, whose only block has 14 free slots
that pass the fitness test. -/
theorem page_alloc_always_reserves_witness :
    (block_loop demo_geometry (fun _ _ => true) 0x400000 demo_state1.page_list ⟨0, 0⟩).1 =
        none ∧
      ∃ pl, (∃ a, (demo_os demo_query2 0x420000).reserve a = some pl) ∧
        0x421000 = (pl + demo_geometry.page_size) % demo_geometry.W ∧
        (pl + demo_geometry.page_size < demo_geometry.W →
          0x421000 = pl + demo_geometry.page_size) ∧
        [page_info.first_used demo_geometry 0x420000, ⟨0x410000, 1, demo_used_first⟩] =
          page_info.first_used demo_geometry pl :: demo_state1.page_list ∧
        [page_info.first_used demo_geometry 0x420000,
            (⟨0x410000, 1, demo_used_first⟩ : page_info)].length =
          demo_state1.page_list.length + 1 ∧
        [0x420000, 0x410000] = pl :: demo_state1.reserved :=
  page_alloc_always_reserves demo_geometry (fun _ _ => true) (demo_os demo_query2 0x420000) 8
    demo_state1 ⟨[page_info.first_used demo_geometry 0x420000, ⟨0x410000, 1, demo_used_first⟩],
      [0x420000, 0x410000]⟩ 0x400000 0x421000 (by decide)

theorem round_up_eq (x u : Nat) : ROUND_UP x u = x + u - 1 - (x + u - 1) % u := rfl

/-- The snapshot range written by `duckhook_unprotect_begin` when nothing overflows. -/
theorem unprotect_begin_values (g : Geometry) (hps : 0 < g.page_size) (ok : Bool)
    (prot : Nat → Nat) (mstate : mem_state_t) (start len : Nat) (hsum : start + len < g.W)
    (hfit : start % g.page_size + len + g.page_size ≤ g.W) :
    (duckhook_unprotect_begin g ok prot mstate start len).2.1.addr =
        g.page_size * (start / g.page_size) ∧
      (duckhook_unprotect_begin g ok prot mstate start len).2.1.size =
        g.page_size * ((start % g.page_size + len + g.page_size - 1) / g.page_size) := by
  have hdm := Nat.div_add_mod start g.page_size
  have hr := Nat.mod_lt start hps
  have haddr := unprotect_begin_addr g ok prot mstate start len
  have hsize := unprotect_begin_size g ok prot mstate start len
  have hrd : ROUND_DOWN start g.page_size = g.page_size * (start / g.page_size) :=
    round_down_eq _ _
  have e0 : g.page_size * (start / g.page_size) % g.W =
      g.page_size * (start / g.page_size) := Nat.mod_eq_of_lt (by omega)
  rw [hrd, e0] at haddr hsize
  have hs1 : sub_w g.W ((len + start) % g.W) (g.page_size * (start / g.page_size)) =
      start % g.page_size + len := by
    rw [Nat.mod_eq_of_lt (by omega), sub_w_eq g.W _ _ (by omega) (by omega)]
    omega
  rw [hs1] at hsize
  have hru : ROUND_UP (start % g.page_size + len) g.page_size =
      g.page_size * ((start % g.page_size + len + g.page_size - 1) / g.page_size) := by
    unfold ROUND_UP
    rw [round_down_eq]
  have hle := Nat.mul_div_le (start % g.page_size + len + g.page_size - 1) g.page_size
  rw [hru, Nat.mod_eq_of_lt (by omega)] at hsize
  exact ⟨haddr, hsize⟩

/-- C13, refuted as stated: for `start = 1` and `len = 2 ^ 64 - 4096` the sum does not
overflow, yet the rounded-up size does: the snapshot is `addr = 0`, `size = 0` and its range
ends before `start + len`. -/
theorem unprotect_begin_size_wraps :
    1 + (2 ^ 64 - 4096) < demo_geometry.W ∧
    (duckhook_unprotect_begin demo_geometry true demo_prot demo_mstate 1
        (2 ^ 64 - 4096)).2.1.addr = 0 ∧
    (duckhook_unprotect_begin demo_geometry true demo_prot demo_mstate 1
        (2 ^ 64 - 4096)).2.1.size = 0 ∧
    ROUND_UP (1 + (2 ^ 64 - 4096)) demo_geometry.page_size = 2 ^ 64 := by
  decide

/-- C13, amended: for a power-of-two page size and `start`, `len` such that `start + len`
fits the machine word and so does `start % page_size + len` rounded up to a page
(`start % page_size + len + page_size ≤ 2 ^ bits`), the snapshot written by
`duckhook_unprotect_begin` has `addr` equal to `start` rounded down and `addr + size` equal
to `start + len` rounded up to a multiple of the page size; `addr` and `size` are multiples
of the page size, the range holds `[start, start + len)` and lies inside every page-aligned
range that does. -/
theorem unprotect_begin_range (g : Geometry) (k : Nat) (hpow : g.page_size = 2 ^ k)
    (ok : Bool) (prot : Nat → Nat) (mstate : mem_state_t) (start len : Nat)
    (hsum : start + len < g.W) (hfit : start % g.page_size + len + g.page_size ≤ g.W) :
    (duckhook_unprotect_begin g ok prot mstate start len).2.1.addr =
        ROUND_DOWN start g.page_size ∧
    (duckhook_unprotect_begin g ok prot mstate start len).2.1.addr +
        (duckhook_unprotect_begin g ok prot mstate start len).2.1.size =
      ROUND_UP (start + len) g.page_size ∧
    g.page_size ∣ (duckhook_unprotect_begin g ok prot mstate start len).2.1.addr ∧
    g.page_size ∣ (duckhook_unprotect_begin g ok prot mstate start len).2.1.size ∧
    (duckhook_unprotect_begin g ok prot mstate start len).2.1.addr ≤ start ∧
    start + len ≤ (duckhook_unprotect_begin g ok prot mstate start len).2.1.addr +
        (duckhook_unprotect_begin g ok prot mstate start len).2.1.size ∧
    ∀ a b, g.page_size ∣ a → g.page_size ∣ b → a ≤ start → start + len ≤ b →
      a ≤ (duckhook_unprotect_begin g ok prot mstate start len).2.1.addr ∧
        (duckhook_unprotect_begin g ok prot mstate start len).2.1.addr +
          (duckhook_unprotect_begin g ok prot mstate start len).2.1.size ≤ b := by
  have hps : 0 < g.page_size := by rw [hpow]; exact Nat.two_pow_pos k
  obtain ⟨haddr, hsize⟩ := unprotect_begin_values g hps ok prot mstate start len hsum hfit
  rw [haddr, hsize]
  have hdm := Nat.div_add_mod start g.page_size
  have hr := Nat.mod_lt start hps
  have hxdm := Nat.div_add_mod (start % g.page_size + len + g.page_size - 1) g.page_size
  have hxr := Nat.mod_lt (start % g.page_size + len + g.page_size - 1) hps
  have hup : ROUND_UP (start + len) g.page_size =
      g.page_size * (start / g.page_size) +
        g.page_size * ((start % g.page_size + len + g.page_size - 1) / g.page_size) := by
    unfold ROUND_UP
    rw [round_down_eq]
    have : start + len + g.page_size - 1 =
        g.page_size * (start / g.page_size) +
          (start % g.page_size + len + g.page_size - 1) := by omega
    rw [this, Nat.mul_add_div hps, Nat.mul_add]
  refine ⟨(round_down_eq _ _).symm, hup.symm, Dvd.intro _ rfl, Dvd.intro _ rfl, by omega,
    by omega, ?_⟩
  rintro a b ⟨a1, rfl⟩ ⟨b1, rfl⟩ ha hb
  constructor
  · have h1 : g.page_size * a1 < g.page_size * (start / g.page_size + 1) := by
      rw [Nat.mul_add, Nat.mul_one]
      omega
    have h2 := Nat.lt_of_mul_lt_mul_left h1
    exact Nat.mul_le_mul_left _ (by omega)
  · have h1 : g.page_size * (start / g.page_size +
        (start % g.page_size + len + g.page_size - 1) / g.page_size) <
        g.page_size * (b1 + 1) := by
      rw [Nat.mul_add, Nat.mul_add, Nat.mul_one]
      omega
    have h2 := Nat.lt_of_mul_lt_mul_left h1
    rw [← Nat.mul_add]
    exact Nat.mul_le_mul_left _ (by omega)

/-- C13, amended, on a range of 4 bytes that straddles a page boundary. -/
theorem unprotect_begin_range_witness :
    (duckhook_unprotect_begin demo_geometry true demo_prot demo_mstate 0x400FFE 4).2.1.addr =
        ROUND_DOWN 0x400FFE demo_geometry.page_size ∧
    (duckhook_unprotect_begin demo_geometry true demo_prot demo_mstate 0x400FFE 4).2.1.addr +
        (duckhook_unprotect_begin demo_geometry true demo_prot demo_mstate 0x400FFE 4).2.1.size =
      ROUND_UP (0x400FFE + 4) demo_geometry.page_size :=
  ⟨(unprotect_begin_range demo_geometry 12 (by decide) true demo_prot demo_mstate 0x400FFE 4
      (by decide) (by decide)).1,
    (unprotect_begin_range demo_geometry 12 (by decide) true demo_prot demo_mstate 0x400FFE 4
      (by decide) (by decide)).2.1⟩

/-- C17, evaluated on the code: on the free region `[0x401000, 0x402000)`, smaller than the
padding `0xF000` up to the next allocation boundary, `RegionSize - diff` wraps around in
`size_t`, the test `RegionSize - diff >= allocation_unit` passes and the scan stops with the
hint `0x410000`, whose unit lies outside the region. -/
theorem hint_loop_accepts_small_region :
    hint_loop demo_geometry demo_os_one_page 1 0x401000 = some (.ok 0x410000) ∧
    sub_w demo_geometry.W 0x1000 (of_int demo_geometry.W (to_int 0xF000)) =
      2 ^ 64 - 0xE000 ∧
    ¬ (0x410000 + demo_geometry.allocation_unit ≤ 0x401000 + 0x1000) := by
  decide


/-! ## The scan of the address space: lemmas -/

theorem hint_loop_succ (g : Geometry) (os : OS) (fuel hint : Nat) :
    hint_loop g os (fuel + 1) hint =
      match os.VirtualQuery hint with
      | none => some (.error .DUCKHOOK_ERROR_INTERNAL_ERROR)
      | some mbi =>
        if accepts g mbi then some (.ok (ROUND_UP mbi.BaseAddress g.allocation_unit % g.W))
        else hint_loop g os fuel ((mbi.BaseAddress + mbi.RegionSize) % g.W) := by
  rw [hint_loop]
  cases os.VirtualQuery hint with
  | none => rfl
  | some mbi =>
    simp only [accepts]
    by_cases h1 : mbi.free = true
    · by_cases h2 : 0 ≤ to_int (sub_w g.W (ROUND_UP mbi.BaseAddress g.allocation_unit % g.W)
          mbi.BaseAddress)
      · by_cases h3 : g.allocation_unit ≤ sub_w g.W mbi.RegionSize
            (of_int g.W (to_int (sub_w g.W (ROUND_UP mbi.BaseAddress g.allocation_unit % g.W)
              mbi.BaseAddress)))
        · simp [h1, h2, h3]
        · simp [h1, h2, h3]
      · simp [h1, h2]
    · simp [h1]

theorem to_int_small (a : Nat) (h : a < 2 ^ 31) : to_int a = (a : Int) := by
  unfold to_int
  have h1 : a % 2 ^ 32 = a := Nat.mod_eq_of_lt (by omega)
  rw [h1, if_pos h]

theorem of_int_nat (W a : Nat) (h : a < W) : of_int W (a : Int) = a := by
  unfold of_int
  rw [Int.emod_eq_of_lt (by omega) (by omega)]
  simp

theorem round_up_bounds (x u : Nat) (hu : 0 < u) : x ≤ ROUND_UP x u ∧ ROUND_UP x u < x + u := by
  rw [round_up_eq]
  have := Nat.mod_lt (x + u - 1) hu
  omega

/-- A region that can hold an aligned unit passes the test of `alloc_page_info`. -/
theorem fits_accepts (g : Geometry) (hau : 0 < g.allocation_unit)
    (hau2 : g.allocation_unit ≤ 2 ^ 31) (mbi : MEMORY_BASIC_INFORMATION)
    (hin : mbi.BaseAddress + mbi.RegionSize < g.W) (h : fits g mbi = true) :
    accepts g mbi = true := by
  simp only [fits, Bool.and_eq_true, decide_eq_true_eq] at h
  obtain ⟨hfree, hfit⟩ := h
  obtain ⟨hlo, hhi⟩ := round_up_bounds mbi.BaseAddress g.allocation_unit hau
  have e1 : ROUND_UP mbi.BaseAddress g.allocation_unit % g.W =
      ROUND_UP mbi.BaseAddress g.allocation_unit := Nat.mod_eq_of_lt (by omega)
  have e2 : sub_w g.W (ROUND_UP mbi.BaseAddress g.allocation_unit) mbi.BaseAddress =
      ROUND_UP mbi.BaseAddress g.allocation_unit - mbi.BaseAddress :=
    sub_w_eq g.W _ _ (by omega) hlo
  have e3 : to_int (ROUND_UP mbi.BaseAddress g.allocation_unit - mbi.BaseAddress) =
      ((ROUND_UP mbi.BaseAddress g.allocation_unit - mbi.BaseAddress : Nat) : Int) :=
    to_int_small _ (by omega)
  have e4 : of_int g.W
      ((ROUND_UP mbi.BaseAddress g.allocation_unit - mbi.BaseAddress : Nat) : Int) =
      ROUND_UP mbi.BaseAddress g.allocation_unit - mbi.BaseAddress :=
    of_int_nat g.W _ (by omega)
  have e5 : sub_w g.W mbi.RegionSize
      (ROUND_UP mbi.BaseAddress g.allocation_unit - mbi.BaseAddress) =
      mbi.RegionSize - (ROUND_UP mbi.BaseAddress g.allocation_unit - mbi.BaseAddress) :=
    sub_w_eq g.W _ _ (by omega) (by omega)
  simp only [accepts, e1, e2, e3, e4, e5, hfree, Bool.true_and, Bool.and_eq_true,
    decide_eq_true_eq]
  constructor
  · omega
  · omega

theorem countP_lt_of_witness {α : Type} (p q : α → Bool) (l : List α)
    (hpq : ∀ x ∈ l, p x = true → q x = true) (r : α) (hr : r ∈ l) (hq : q r = true)
    (hp : p r = false) : l.countP p < l.countP q := by
  induction l with
  | nil => simp at hr
  | cons x xs ih =>
    rw [List.countP_cons, List.countP_cons]
    have hmono : xs.countP p ≤ xs.countP q :=
      List.countP_mono_left (fun y hy => hpq y (List.mem_cons_of_mem _ hy))
    rcases List.mem_cons.1 hr with rfl | hr
    · simp only [hq, hp, if_true]
      simp
      omega
    · have := ih (fun y hy => hpq y (List.mem_cons_of_mem _ hy)) hr
      by_cases hpx : p x = true
      · have hqx := hpq x (List.mem_cons_self _ _) hpx
        simp only [hpx, hqx, if_true]
        omega
      · have hpx2 : p x = false := by simpa using hpx
        rw [hpx2]
        by_cases hqx : q x = true
        · simp only [hqx, if_true]
          simp
          omega
        · have hqx2 : q x = false := by simpa using hqx
          rw [hqx2]
          simp
          omega

theorem region_query_some (regions : List MEMORY_BASIC_INFORMATION) (a : Nat)
    (r : MEMORY_BASIC_INFORMATION) (h : region_query regions a = some r) :
    r ∈ regions ∧ r.BaseAddress ≤ a ∧ a < r.BaseAddress + r.RegionSize := by
  unfold region_query at h
  have h1 := List.mem_of_find?_eq_some h
  have h2 := List.find?_some h
  simp only [decide_eq_true_eq] at h2
  exact ⟨h1, h2⟩

theorem region_query_none (regions : List MEMORY_BASIC_INFORMATION) (a : Nat)
    (h : region_query regions a = none) (r : MEMORY_BASIC_INFORMATION) (hr : r ∈ regions) :
    ¬ (r.BaseAddress ≤ a ∧ a < r.BaseAddress + r.RegionSize) := by
  unfold region_query at h
  rw [List.find?_eq_none] at h
  simpa using h r hr

/-- Two regions of an address space are the same or do not overlap. -/
theorem regions_disjoint (W : Nat) (regions : List MEMORY_BASIC_INFORMATION)
    (hok : regions_ok W regions) (r1 r2 : MEMORY_BASIC_INFORMATION) (h1 : r1 ∈ regions)
    (h2 : r2 ∈ regions) (hne : r1 ≠ r2) :
    r1.BaseAddress + r1.RegionSize ≤ r2.BaseAddress ∨
      r2.BaseAddress + r2.RegionSize ≤ r1.BaseAddress := by
  have hsym : regions.Pairwise (fun a b : MEMORY_BASIC_INFORMATION =>
      a.BaseAddress + a.RegionSize ≤ b.BaseAddress ∨
        b.BaseAddress + b.RegionSize ≤ a.BaseAddress) :=
    hok.2.imp (fun h => Or.inl h)
  exact List.Pairwise.forall (fun a b h => h.symm) hsym h1 h2 hne

/-- A region that ends behind `hint` and not behind the region holding `hint` is that
region. -/
theorem region_at_hint (W : Nat) (regions : List MEMORY_BASIC_INFORMATION)
    (hok : regions_ok W regions) (r r1 : MEMORY_BASIC_INFORMATION) (hr : r ∈ regions)
    (hr1 : r1 ∈ regions) (hint : Nat) (hlo : r.BaseAddress ≤ hint)
    (h1 : hint < r1.BaseAddress + r1.RegionSize)
    (h2 : r1.BaseAddress + r1.RegionSize ≤ r.BaseAddress + r.RegionSize) : r1 = r := by
  by_contra hne
  have hpos := (hok.1 r1 hr1).1
  rcases regions_disjoint W regions hok r1 r hr1 hr hne with h | h <;> omega

theorem region_query_ne_none (regions : List MEMORY_BASIC_INFORMATION)
    (r : MEMORY_BASIC_INFORMATION) (hr : r ∈ regions) (x : Nat) (h1 : r.BaseAddress ≤ x)
    (h2 : x < r.BaseAddress + r.RegionSize) : region_query regions x ≠ none :=
  fun h => region_query_none regions x h r hr ⟨h1, h2⟩

/-- The scan returns once `fuel` exceeds the number of regions that end behind the hint:
with the aligned address of the first accepted region, or with the error of the first
failing query. -/
theorem hint_loop_scan (g : Geometry) (regions : List MEMORY_BASIC_INFORMATION)
    (hok : regions_ok g.W regions) (os : OS) (hq : os.VirtualQuery = region_query regions) :
    ∀ fuel hint, regions_behind regions hint < fuel →
      ∃ res, hint_loop g os fuel hint = some res ∧
        (∀ a, res = .ok a → ∃ r, first_accepted g regions hint r ∧
          a = ROUND_UP r.BaseAddress g.allocation_unit % g.W) ∧
        (∀ e, res = .error e → e = .DUCKHOOK_ERROR_INTERNAL_ERROR ∧
          ∃ a, first_failure g regions hint a) := by
  intro fuel
  induction fuel with
  | zero => intro hint h; omega
  | succ f ih =>
    intro hint hfuel
    rw [hint_loop_succ, hq]
    cases hquery : region_query regions hint with
    | none =>
      refine ⟨.error .DUCKHOOK_ERROR_INTERNAL_ERROR, rfl, ?_, ?_⟩
      · intro a ha
        cases ha
      · intro e he
        cases he
        refine ⟨rfl, hint, le_refl _, hquery, ?_, ?_⟩
        · intro x h1 h2
          omega
        · intro r1 hr1 h1 h2
          exact absurd ⟨le_of_lt h2, h1⟩ (region_query_none regions hint hquery r1 hr1)
    | some r =>
      obtain ⟨hr, hlo, hhi⟩ := region_query_some regions hint r hquery
      have hcov : covered regions hint (r.BaseAddress + r.RegionSize) :=
        fun x h1 h2 => region_query_ne_none regions r hr x (by omega) h2
      by_cases hacc : accepts g r = true
      · refine ⟨.ok (ROUND_UP r.BaseAddress g.allocation_unit % g.W), by simp [hacc], ?_, ?_⟩
        · intro a ha
          cases ha
          refine ⟨r, ⟨hr, hhi, hacc, hcov, ?_⟩, rfl⟩
          intro r1 hr1 h1 h2
          exfalso
          have hne : r1 ≠ r := by
            intro h
            subst h
            omega
          rcases regions_disjoint g.W regions hok r1 r hr1 hr hne with h | h <;> omega
        · intro e he
          cases he
      · have hrej : accepts g r = false := by simpa using hacc
        have hend : (r.BaseAddress + r.RegionSize) % g.W = r.BaseAddress + r.RegionSize :=
          Nat.mod_eq_of_lt (hok.1 r hr).2
        have hless : regions_behind regions (r.BaseAddress + r.RegionSize) <
            regions_behind regions hint := by
          unfold regions_behind
          apply countP_lt_of_witness _ _ regions _ r hr
          · simpa using hhi
          · simp
          · intro x _ hx
            simp only [decide_eq_true_eq] at hx ⊢
            omega
        have hpast : ∀ r1 ∈ regions, hint < r1.BaseAddress + r1.RegionSize →
            ¬ r.BaseAddress + r.RegionSize < r1.BaseAddress + r1.RegionSize →
            accepts g r1 = false := by
          intro r1 hr1 hb1 hcase
          have := region_at_hint g.W regions hok r r1 hr hr1 hint hlo hb1 (by omega)
          rw [this]
          exact hrej
        obtain ⟨res, hres, hokc, herr⟩ := ih (r.BaseAddress + r.RegionSize) (by omega)
        refine ⟨res, by simp [hrej, hend, hres], ?_, ?_⟩
        · intro a ha
          obtain ⟨rf, ⟨hrf, h1, h2, h3, h4⟩, h5⟩ := hokc a ha
          refine ⟨rf, ⟨hrf, by omega, h2, ?_, ?_⟩, h5⟩
          · intro x hx1 hx2
            by_cases hx : x < r.BaseAddress + r.RegionSize
            · exact hcov x hx1 hx
            · exact h3 x (by omega) hx2
          · intro r1 hr1 hb1 hb2
            by_cases hcase : r.BaseAddress + r.RegionSize < r1.BaseAddress + r1.RegionSize
            · exact h4 r1 hr1 hcase hb2
            · exact hpast r1 hr1 hb1 hcase
        · intro e he
          obtain ⟨h0, a, h1, h2, h3, h4⟩ := herr e he
          refine ⟨h0, a, by omega, h2, ?_, ?_⟩
          · intro x hx1 hx2
            by_cases hx : x < r.BaseAddress + r.RegionSize
            · exact hcov x hx1 hx
            · exact h3 x (by omega) hx2
          · intro r1 hr1 hb1 hb2
            by_cases hcase : r.BaseAddress + r.RegionSize < r1.BaseAddress + r1.RegionSize
            · exact h4 r1 hr1 hcase hb2
            · exact hpast r1 hr1 hb1 hcase

/-- An accepted first region and a first failing query exclude each other. -/
theorem accepted_excludes_failure (g : Geometry) (regions : List MEMORY_BASIC_INFORMATION)
    (hok : regions_ok g.W regions) (hint a : Nat) (r : MEMORY_BASIC_INFORMATION)
    (h1 : first_accepted g regions hint r) (h2 : first_failure g regions hint a) : False := by
  obtain ⟨hr, hb, hacc, hcov, -⟩ := h1
  obtain ⟨ha, hnone, -, hrej⟩ := h2
  have hpos := (hok.1 r hr).1
  by_cases hlt : a < r.BaseAddress + r.RegionSize
  · exact hcov a ha hlt hnone
  · have := hrej r hr hb (by omega)
    rw [this] at hacc
    exact absurd hacc (by decide)

/-- There is at most one first accepted region. -/
theorem first_accepted_unique (g : Geometry) (regions : List MEMORY_BASIC_INFORMATION)
    (hok : regions_ok g.W regions) (hint : Nat) (r r1 : MEMORY_BASIC_INFORMATION)
    (h1 : first_accepted g regions hint r) (h2 : first_accepted g regions hint r1) :
    r = r1 := by
  obtain ⟨hr, hb, hacc, -, hfirst⟩ := h1
  obtain ⟨hr1, hb1, hacc1, -, hfirst1⟩ := h2
  have hpos := (hok.1 r hr).1
  have hpos1 := (hok.1 r1 hr1).1
  by_contra hne
  have e1 : ¬ r1.BaseAddress < r.BaseAddress := by
    intro h
    have := hfirst r1 hr1 hb1 h
    rw [this] at hacc1
    exact absurd hacc1 (by decide)
  have e2 : ¬ r.BaseAddress < r1.BaseAddress := by
    intro h
    have := hfirst1 r hr hb h
    rw [this] at hacc
    exact absurd hacc (by decide)
  rcases regions_disjoint g.W regions hok r r1 hr hr1 hne with h | h <;> omega

theorem accepts_false_fits (g : Geometry) (hau : 0 < g.allocation_unit)
    (hau2 : g.allocation_unit ≤ 2 ^ 31) (mbi : MEMORY_BASIC_INFORMATION)
    (hin : mbi.BaseAddress + mbi.RegionSize < g.W) (h : accepts g mbi = false) :
    fits g mbi = false := by
  by_contra hf
  have := fits_accepts g hau hau2 mbi hin (by simpa using hf)
  rw [this] at h
  exact absurd h (by decide)

/-- On the address space that covers the whole word, the scan from 0 never returns. -/
theorem hint_loop_wrap (fuel : Nat) :
    hint_loop demo_geometry demo_os_wrap fuel 0 = none ∧
      hint_loop demo_geometry demo_os_wrap fuel (2 ^ 63) = none := by
  induction fuel with
  | zero => exact ⟨rfl, rfl⟩
  | succ f ih =>
    have q0 : demo_os_wrap.VirtualQuery 0 = some ⟨0, 2 ^ 63, false⟩ := by decide
    have q1 : demo_os_wrap.VirtualQuery (2 ^ 63) = some ⟨2 ^ 63, 2 ^ 63, false⟩ := by decide
    have a0 : accepts demo_geometry ⟨0, 2 ^ 63, false⟩ = false := by decide
    have a1 : accepts demo_geometry ⟨2 ^ 63, 2 ^ 63, false⟩ = false := by decide
    have n0 : (0 + 2 ^ 63) % demo_geometry.W = 2 ^ 63 := by decide
    have n1 : (2 ^ 63 + 2 ^ 63) % demo_geometry.W = 0 := by decide
    constructor
    · rw [hint_loop_succ, q0]
      simp only [a0, n0]
      exact ih.2
    · rw [hint_loop_succ, q1]
      simp only [a1, n1]
      exact ih.1

theorem demo_regions_ok : regions_ok demo_geometry.W demo_regions := by
  unfold regions_ok
  decide

/-- C18, refuted as stated. On the two used regions that cover the whole 64-bit word the
address after the last region wraps to 0 and the scan from 0 returns for no bound on its
iterations. On `demo_regions_small` the scan from `0x400000` stops at the free region
`[0x401000, 0x402000)`, which cannot hold an aligned unit, with the hint `0x410000` inside
a used region, and `alloc_page_info` returns `DUCKHOOK_ERROR_MEMORY_ALLOCATION` although no
query failed and the region at `0x420000` can hold a unit. -/
theorem hint_loop_not_first_fit :
    (¬ ∃ fuel res, hint_loop demo_geometry demo_os_wrap fuel 0 = some res) ∧
    hint_loop demo_geometry demo_os_small 2 0x400000 = some (.ok 0x410000) ∧
    fits demo_geometry ⟨0x401000, 0x1000, true⟩ = false ∧
    region_query demo_regions_small 0x410000 = some ⟨0x410000, 0x10000, false⟩ ∧
    fits demo_geometry ⟨0x420000, 0xE0000, true⟩ = true ∧
    alloc_page_info demo_geometry demo_os_small 2 State.empty 0x400000 =
      some (.error .DUCKHOOK_ERROR_MEMORY_ALLOCATION, State.empty) := by
  refine ⟨?_, by decide, by decide, by decide, by decide, by decide⟩
  rintro ⟨fuel, res, h⟩
  rw [(hint_loop_wrap fuel).1] at h
  cases h

/-- C18, amended: on an address space of finitely many non-empty regions in ascending
order that ends below the end of the machine word, with an allocation unit between 1 and
`2 ^ 31`, the scan of `alloc_page_info` from any hint returns within one iteration per
region. It returns the aligned address of a region exactly when that region is the first
one at or behind the hint that passes its test and the query succeeds at every address
from the hint to the end of that region. It returns the error exactly when the query
fails at some address at or behind the hint before any region passed the test;
`alloc_page_info` then returns that error with the state unchanged. No region that the
scan went past can hold an aligned unit. -/
theorem hint_scan_first_accepted (g : Geometry) (hau : 0 < g.allocation_unit)
    (hau2 : g.allocation_unit ≤ 2 ^ 31) (hx : g.cpu_x86_64 = true)
    (regions : List MEMORY_BASIC_INFORMATION) (hok : regions_ok g.W regions) (os : OS)
    (hq : os.VirtualQuery = region_query regions) (hint : Nat) :
    ∃ res, hint_loop g os (regions.length + 1) hint = some res ∧
      (∀ a, res = .ok a ↔
        ∃ r, first_accepted g regions hint r ∧
          a = ROUND_UP r.BaseAddress g.allocation_unit % g.W) ∧
      (∀ e, res = .error e ↔
        e = .DUCKHOOK_ERROR_INTERNAL_ERROR ∧ ∃ a, first_failure g regions hint a) ∧
      (∀ r, first_accepted g regions hint r →
        ∀ r1 ∈ regions, hint < r1.BaseAddress + r1.RegionSize →
          r1.BaseAddress < r.BaseAddress → fits g r1 = false) ∧
      (∀ a, first_failure g regions hint a →
        ∀ r1 ∈ regions, hint < r1.BaseAddress + r1.RegionSize →
          r1.BaseAddress < a → fits g r1 = false) ∧
      (∀ e, res = .error e →
        ∀ st, alloc_page_info g os (regions.length + 1) st hint = some (.error e, st)) := by
  have hlen : regions_behind regions hint < regions.length + 1 :=
    Nat.lt_succ_of_le (List.countP_le_length _)
  obtain ⟨res, hres, hokc, herr⟩ :=
    hint_loop_scan g regions hok os hq (regions.length + 1) hint hlen
  refine ⟨res, hres, ?_, ?_, ?_, ?_, ?_⟩
  · intro a
    constructor
    · exact hokc a
    · rintro ⟨r, hr, ha⟩
      cases res with
      | ok a1 =>
        obtain ⟨r1, hr1, ha1⟩ := hokc a1 rfl
        have := first_accepted_unique g regions hok hint r r1 hr hr1
        rw [ha, ha1, this]
      | error e =>
        obtain ⟨-, a2, hfail⟩ := herr e rfl
        exact absurd hfail (fun h => accepted_excludes_failure g regions hok hint a2 r hr h)
  · intro e
    constructor
    · exact herr e
    · rintro ⟨he, a, hfail⟩
      cases res with
      | ok a1 =>
        obtain ⟨r1, hr1, -⟩ := hokc a1 rfl
        exact absurd hfail (fun h => accepted_excludes_failure g regions hok hint a r1 hr1 h)
      | error e1 =>
        obtain ⟨he1, -⟩ := herr e1 rfl
        rw [he, he1]
  · intro r hr r1 hr1 hb1 hb2
    exact accepts_false_fits g hau hau2 r1 (hok.1 r1 hr1).2 (hr.2.2.2.2 r1 hr1 hb1 hb2)
  · intro a ha r1 hr1 hb1 hb2
    exact accepts_false_fits g hau hau2 r1 (hok.1 r1 hr1).2 (ha.2.2.2 r1 hr1 hb1 hb2)
  · intro e he st
    subst he
    simp [alloc_page_info, choose_hint, hx, hres]

/-- C18, amended, on `demo_regions` from the hint `0x400000`: the scan goes past the used
region, the free region that is too short and the used unit, and returns `0x420000`. -/
theorem hint_scan_first_accepted_witness :
    hint_loop demo_geometry demo_os_regions (demo_regions.length + 1) 0x400000 =
        some (.ok 0x420000) ∧
      ∃ r, first_accepted demo_geometry demo_regions 0x400000 r ∧
        0x420000 = ROUND_UP r.BaseAddress demo_geometry.allocation_unit % demo_geometry.W := by
  obtain ⟨res, hres, hokc, -⟩ :=
    hint_scan_first_accepted demo_geometry (by decide) (by decide) rfl demo_regions
      demo_regions_ok demo_os_regions rfl 0x400000
  have hval : hint_loop demo_geometry demo_os_regions (demo_regions.length + 1) 0x400000 =
      some (.ok 0x420000) := by decide
  rw [hval] at hres
  have hres2 : res = .ok 0x420000 := by
    simp only [Option.some.injEq] at hres
    exact hres.symm
  exact ⟨hval, (hokc 0x420000).1 hres2⟩

end Duckhook
